import Mathlib

/-!
Verification of the field-extraction core of the mining-legal-docs-extractor
repository: the Spanish written-number converter (auditoria_extractor/number_parser.py)
and the regex-based field extractors (auditoria_extractor/text_parsers.py).

Texts are modelled as lists of characters.  Python regular expressions are
embedded by a small backtracking matcher over a regex syntax tree whose
semantics follows Python's re module for the constructs the repository uses:
prioritized alternation, greedy and lazy counted repetition over character
classes, capturing groups, word boundaries, end-of-string anchors, leftmost
search and non-overlapping finditer.  Python floats are modelled exactly by
rationals (every float the code builds here is the exact value of a decimal
literal or an integer).  Python str.lower/str.upper/str.title are modelled on
the Latin repertoire that the repository's data can contain.

Note on source fidelity: the non-ASCII characters of text_parsers.py are
embedded with the exact code points the file contains.  That file is stored
in a double-encoded form, so where the surrounding project intends accented
letters such as "Ñ" its pattern strings actually hold the two characters
"√ë"; the embedding reproduces this faithfully, because it changes the
matching behaviour of several extractors.  number_parser.py is stored
correctly and its accented vocabulary is embedded as written.
-/

/-- Text is modelled as a list of characters. -/
abbrev Str := List Char

/-- Case table for the repertoire handled here: ASCII letters, the Spanish
accented letters, and the case pairs of the stray Latin-1 letters that appear
in text_parsers.py's (double-encoded) character classes. -/
def caseTable : List (Char × Char) :=
  [('A', 'a'), ('B', 'b'), ('C', 'c'), ('D', 'd'), ('E', 'e'), ('F', 'f'),
   ('G', 'g'), ('H', 'h'), ('I', 'i'), ('J', 'j'), ('K', 'k'), ('L', 'l'),
   ('M', 'm'), ('N', 'n'), ('O', 'o'), ('P', 'p'), ('Q', 'q'), ('R', 'r'),
   ('S', 's'), ('T', 't'), ('U', 'u'), ('V', 'v'), ('W', 'w'), ('X', 'x'),
   ('Y', 'y'), ('Z', 'z'),
   ('Á', 'á'), ('É', 'é'), ('Í', 'í'), ('Ó', 'ó'), ('Ú', 'ú'), ('Ü', 'ü'),
   ('Ñ', 'ñ'),
   ('Å', 'å'), ('Â', 'â'), ('Ç', 'ç'), ('Ì', 'ì'), ('Ö', 'ö'), ('Ë', 'ë'),
   ('Ä', 'ä')]

/-- Lower-casing a character (model of Python str.lower on one character). -/
def pyLower (c : Char) : Char :=
  match caseTable.find? (fun p => p.1 == c) with
  | some p => p.2
  | none => c

/-- Upper-casing a character (model of Python str.upper on one character). -/
def pyUpper (c : Char) : Char :=
  match caseTable.find? (fun p => p.2 == c) with
  | some p => p.1
  | none => c

/-- A cased letter of the modelled repertoire. -/
def isLetterChar (c : Char) : Bool :=
  caseTable.any (fun p => p.1 == c || p.2 == c)

/-- ASCII decimal digit. -/
def isDigitChar (c : Char) : Bool :=
  '0' ≤ c && c ≤ '9'

/-- Whitespace, as Python's regex class backslash-s recognises it on the
ASCII range. -/
def isSpaceChar (c : Char) : Bool :=
  c == ' ' || c == '\t' || c == '\n' || c == '\r' || c == '\x0b' || c == '\x0c'

/-- Word character for Python's word-boundary assertion: letters, digits,
underscore, and the masculine ordinal indicator (a Unicode letter). -/
def isWordChar (c : Char) : Bool :=
  isLetterChar c || isDigitChar c || c == '_' || c == 'º'

/-- Lower-casing a text. -/
def lowerStr (t : Str) : Str := t.map pyLower

/-- Upper-casing a text (model of Python str.upper). -/
def upperStr (t : Str) : Str := t.map pyUpper

/-- Model of Python str.title: a cased character is upper-cased when the
previous character was not cased, lower-cased otherwise. -/
def titleAux : Bool → Str → Str
  | _, [] => []
  | prevCased, c :: cs =>
      if isLetterChar c then
        (if prevCased then pyLower c else pyUpper c) :: titleAux true cs
      else
        c :: titleAux false cs

/-- Model of Python str.title. -/
def titleStr (t : Str) : Str := titleAux false t

/-- Drop the longest prefix of characters satisfying p. -/
def dropWhileB (p : Char → Bool) : Str → Str
  | [] => []
  | c :: cs => if p c then dropWhileB p cs else c :: cs

/-- Model of Python str.strip(chars): remove leading and trailing characters
that belong to the given set. -/
def stripChars (set : Str) (t : Str) : Str :=
  ((dropWhileB (fun c => set.contains c)
      ((dropWhileB (fun c => set.contains c) t.reverse)).reverse))

/-- Model of Python str.strip() with no argument: strip whitespace. -/
def stripWs (t : Str) : Str :=
  (dropWhileB isSpaceChar ((dropWhileB isSpaceChar t.reverse)).reverse)

/-- Whitespace-splitting helper: accumulates the current word. -/
def wordsAux (acc : Str) : Str → List Str
  | [] => if acc.isEmpty then [] else [acc]
  | c :: cs =>
      if isSpaceChar c then
        if acc.isEmpty then wordsAux [] cs else acc :: wordsAux [] cs
      else
        wordsAux (acc ++ [c]) cs

/-- Model of Python str.split() with no argument: split on whitespace runs,
discarding empty pieces. -/
def wordsOf (t : Str) : List Str := wordsAux [] t

/-- Interleave a single space between words. -/
def joinWords : List Str → Str
  | [] => []
  | [w] => w
  | w :: ws => w ++ ' ' :: joinWords ws

/-- Substring containment (model of Python "a in b"). -/
def containsSub (needle hay : Str) : Bool :=
  match hay with
  | [] => needle.isEmpty
  | _ :: tl => needle.isPrefixOf hay || containsSub needle tl

/-- Decimal value of a digit string (helper for int conversions). -/
def digitsVal (t : Str) : Nat :=
  t.foldl (fun acc c => acc * 10 + (c.toNat - '0'.toNat)) 0

/-- Model of Python int(s) for the strings this code builds: all characters
must be digits and there must be at least one. -/
def parseIntAll (t : Str) : Option Nat :=
  if t ≠ [] && t.all isDigitChar then some (digitsVal t) else none

/-- Model of Python float(s) for strings over digits and dots: at most one
dot, at least one digit; the exact decimal value as a rational. -/
def parseFloatQ (t : Str) : Option ℚ :=
  let intPart := t.takeWhile (fun c => c != '.')
  let rest := t.dropWhile (fun c => c != '.')
  match rest with
  | [] =>
      if t ≠ [] && t.all isDigitChar then some ((digitsVal t : ℚ)) else none
  | _ :: frac =>
      if (intPart ++ frac) ≠ [] && intPart.all isDigitChar &&
          frac.all isDigitChar then
        some ((digitsVal intPart : ℚ) + (digitsVal frac : ℚ) / ((10 : ℚ) ^ frac.length))
      else none

/-- Characters of t from position s (inclusive) to position e (exclusive). -/
def sliceStr (t : Str) (s e : Nat) : Str :=
  (t.drop s).take (e - s)

/-!
Regex engine.  Syntax trees cover exactly the constructs the repository's
patterns use.  Character classes are Boolean predicates; counted repetition
is restricted to character classes, which is what every unbounded or counted
repetition in the source operates on.  Matching is by continuation-passing
backtracking with Python's priorities: left alternative first, greedy
repetition tries longer first, lazy repetition shorter first.
-/

/-- Regex syntax tree. -/
inductive RE where
  | eps : RE
  | cls (p : Char → Bool) : RE
  | seq (a b : RE) : RE
  | alt (a b : RE) : RE
  | grp (i : Nat) (r : RE) : RE
  | repC (p : Char → Bool) (lo : Nat) (hi : Option Nat) (lazyRep : Bool) : RE
  | wb : RE
  | eos : RE

/-- Concatenation of a list of regexes. -/
def catRE (rs : List RE) : RE := rs.foldr RE.seq RE.eps

/-- Prioritized alternation: the first argument, then each element in order. -/
def altsRE (r : RE) (rs : List RE) : RE := rs.foldl RE.alt r

/-- Greedy optional element. -/
def optRE (r : RE) : RE := RE.alt r RE.eps

/-- Case-sensitive one-character literal. -/
def chC (c : Char) : RE := RE.cls (fun x => x == c)

/-- Case-insensitive one-character literal (IGNORECASE). -/
def chCI (c : Char) : RE := RE.cls (fun x => pyLower x == pyLower c)

/-- Case-sensitive literal string. -/
def litRE (s : String) : RE := catRE (s.data.map chC)

/-- Case-insensitive literal string (IGNORECASE). -/
def litCI (s : String) : RE := catRE (s.data.map chCI)

/-- Character at a position, if any. -/
def charAt (t : Str) (i : Nat) : Option Char := t.get? i

/-- Length of the maximal prefix satisfying p. -/
def runLen (p : Char → Bool) : Str → Nat
  | [] => 0
  | c :: cs => if p c then runLen p cs + 1 else 0

/-- Iteration counts a counted class repetition may take, in backtracking
priority order; m is the length of the maximal run available. -/
def repCands (lo m : Nat) (lazyRep : Bool) : List Nat :=
  if lo > m then []
  else if lazyRep then (List.range (m - lo + 1)).map (fun k => lo + k)
  else (List.range (m - lo + 1)).map (fun k => m - k)

/-- Recorded capturing groups: group index, start, end. -/
abbrev Groups := List (Nat × Nat × Nat)

/-- A complete match: its end position and its groups. -/
structure MRes where
  endPos : Nat
  groups : Groups
deriving DecidableEq

/-- Word-boundary test against an optional character. -/
def wordOpt : Option Char → Bool
  | none => false
  | some c => isWordChar c

/-- Continuation-passing backtracking matcher; k receives the position after
the sub-match and the groups recorded so far. -/
def matchR (t : Str) : RE → Nat → Groups → (Nat → Groups → Option MRes) → Option MRes
  | .eps, pos, g, k => k pos g
  | .cls p, pos, g, k =>
      match charAt t pos with
      | some c => if p c then k (pos + 1) g else none
      | none => none
  | .seq a b, pos, g, k => matchR t a pos g (fun p1 g1 => matchR t b p1 g1 k)
  | .alt a b, pos, g, k => (matchR t a pos g k) <|> (matchR t b pos g k)
  | .grp i r, pos, g, k => matchR t r pos g (fun p1 g1 => k p1 ((i, pos, p1) :: g1))
  | .repC p lo hi lz, pos, g, k =>
      let m0 := runLen p (t.drop pos)
      let m := match hi with | some h => min m0 h | none => m0
      (repCands lo m lz).findSome? (fun n => k (pos + n) g)
  | .wb, pos, g, k =>
      let prev := if pos = 0 then none else charAt t (pos - 1)
      if wordOpt prev != wordOpt (charAt t pos) then k pos g else none
  | .eos, pos, g, k =>
      if pos = t.length ∨ (pos + 1 = t.length ∧ charAt t pos = some '\n') then
        k pos g
      else none

/-- Leftmost search: try a full match at pos, pos+1, ...; fuel bounds the
number of start positions tried. -/
def searchFromAux (t : Str) (r : RE) : Nat → Nat → Option (Nat × MRes)
  | 0, _ => none
  | fuel + 1, pos =>
      match matchR t r pos [] (fun e g => some ⟨e, g⟩) with
      | some m => some (pos, m)
      | none => if t.length ≤ pos then none else searchFromAux t r fuel (pos + 1)

/-- Model of re.search: leftmost match, if any. -/
def reSearch (r : RE) (t : Str) : Option (Nat × MRes) :=
  searchFromAux t r (t.length + 1) 0

/-- Model of re.finditer: non-overlapping matches scanning left to right; an
empty match advances the scan position by one. -/
def finditerAux (t : Str) (r : RE) : Nat → Nat → List (Nat × MRes)
  | 0, _ => []
  | fuel + 1, pos =>
      match searchFromAux t r (t.length + 1) pos with
      | none => []
      | some (s, m) =>
          (s, m) :: finditerAux t r fuel (if m.endPos ≤ s then s + 1 else m.endPos)

/-- All matches of r in t, in order. -/
def reFinditer (r : RE) (t : Str) : List (Nat × MRes) :=
  finditerAux t r (t.length + 2) 0

/-- Span of a capturing group inside a match. -/
def grpSpan (m : MRes) (i : Nat) : Option (Nat × Nat) :=
  (m.groups.find? (fun x => x.1 == i)).map (fun x => x.2)

/-- Captured text of a group, empty when the group is absent. -/
def grpStr (t : Str) (m : MRes) (i : Nat) : Str :=
  match grpSpan m i with
  | some (s, e) => sliceStr t s e
  | none => []

/-- Remainder of a text after a position, with the given (disjoint, ordered)
spans removed. -/
def removeSpansFrom (t : Str) (start : Nat) : List (Nat × Nat) → Str
  | [] => t.drop start
  | (s, e) :: rest => sliceStr t start s ++ removeSpansFrom t e rest

/-- Delete the given (disjoint, ordered) spans from a text; model of re.sub
with an empty replacement, fed with the finditer spans. -/
def removeSpans (t : Str) (spans : List (Nat × Nat)) : Str :=
  removeSpansFrom t 0 spans

/-!
Embedding of auditoria_extractor/number_parser.py.
-/

/-- UNIDADES table from number_parser.py. -/
def UNIDADES : List (String × Nat) :=
  [("cero", 0), ("un", 1), ("uno", 1), ("una", 1), ("dos", 2), ("tres", 3),
   ("cuatro", 4), ("cinco", 5), ("seis", 6), ("siete", 7), ("ocho", 8),
   ("nueve", 9)]

/-- ESPECIALES table from number_parser.py. -/
def ESPECIALES : List (String × Nat) :=
  [("diez", 10), ("once", 11), ("doce", 12), ("trece", 13), ("catorce", 14),
   ("quince", 15), ("dieciséis", 16), ("dieciseis", 16), ("diecisiete", 17),
   ("dieciocho", 18), ("diecinueve", 19)]

/-- DECENAS table from number_parser.py. -/
def DECENAS : List (String × Nat) :=
  [("veinte", 20), ("treinta", 30), ("cuarenta", 40), ("cincuenta", 50),
   ("sesenta", 60), ("setenta", 70), ("ochenta", 80), ("noventa", 90)]

/-- CENTENAS table from number_parser.py. -/
def CENTENAS : List (String × Nat) :=
  [("cien", 100), ("ciento", 100), ("doscientos", 200), ("trescientos", 300),
   ("cuatrocientos", 400), ("quinientos", 500), ("seiscientos", 600),
   ("setecientos", 700), ("ochocientos", 800), ("novecientos", 900)]

/-- MULTIPLICADORES table from number_parser.py. -/
def MULTIPLICADORES : List (String × Nat) :=
  [("mil", 1000), ("millon", 1000000), ("millón", 1000000),
   ("millones", 1000000)]

/-- Dictionary lookup for a token. -/
def dictLookup (d : List (String × Nat)) (tok : Str) : Option Nat :=
  (d.find? (fun p => p.1.data == tok)).map (fun p => p.2)

/-- Accent folding performed by normalize_text_number (the chained
str.replace calls). -/
def foldAccent (c : Char) : Char :=
  if c = 'á' then 'a' else if c = 'é' then 'e' else if c = 'í' then 'i'
  else if c = 'ó' then 'o' else if c = 'ú' then 'u' else if c = 'ü' then 'u'
  else c

/-- Model of normalize_text_number: lower-case, fold accented vowels, turn
every character that is neither a lower-case ASCII letter nor whitespace into
a space, collapse whitespace runs and strip. -/
def normalize_text_number (t : Str) : Str :=
  let t1 := (t.map pyLower).map foldAccent
  let t2 := t1.map (fun c =>
    if ('a' ≤ c && c ≤ 'z') || isSpaceChar c then c else ' ')
  joinWords (wordsOf t2)

/-- One step of the token scan in text_number_to_int: state is
(total, current). -/
def scanTok (st : Nat × Nat) (tok : Str) : Nat × Nat :=
  match dictLookup UNIDADES tok with
  | some v => (st.1, st.2 + v)
  | none =>
  match dictLookup ESPECIALES tok with
  | some v => (st.1, st.2 + v)
  | none =>
  match dictLookup DECENAS tok with
  | some v => (st.1, st.2 + v)
  | none =>
  match dictLookup CENTENAS tok with
  | some v => (st.1, st.2 + v)
  | none =>
  if tok = "y".data then st
  else
  match dictLookup MULTIPLICADORES tok with
  | some factor =>
      let current := if st.2 = 0 then 1 else st.2
      (st.1 + current * factor, 0)
  | none => st

/-- Model of text_number_to_int from number_parser.py. -/
def text_number_to_int (t : Str) : Option Nat :=
  if t = [] then none
  else
    let nt := normalize_text_number t
    if nt = [] then none
    else
      let tokens := wordsOf nt
      let st := tokens.foldl scanTok (0, 0)
      let total := st.1 + st.2
      if total ≠ 0 then some total else none


/-!
Embedding of auditoria_extractor/text_parsers.py.  Character classes carry
the exact code points stored in the file (see the header note); redundant
class members (the DELCIVILRA letters inside an A-Z class, duplicated
characters in a class) collapse in the predicates.
-/

/-- Model of _normalize_spaces: collapse whitespace runs to single spaces and
strip the ends. -/
def normSpaces (t : Str) : Str := joinWords (wordsOf t)

/-- The stray letters stored in the accented-letter classes of
text_parsers.py. -/
def mojiLetras : Str := "√Åâçìöúë".data

/-- Case-insensitive class membership: a character matches a class literal
set under IGNORECASE when it or one of its case partners is in the set. -/
def ciMem (set : Str) (c : Char) : Bool :=
  set.contains c || set.contains (pyLower c) || set.contains (pyUpper c)

/-- ASCII letter of either case (an A-Z class range under IGNORECASE). -/
def azAZci (c : Char) : Bool :=
  ('A' ≤ c && c ≤ 'Z') || ('a' ≤ c && c ≤ 'z')

/-- Class of the conservador / fojas / numero / anio / fecha captures:
upper-case ASCII, the stored stray letters, and space, under IGNORECASE. -/
def clsLetraEsp (c : Char) : Bool :=
  azAZci c || ciMem mojiLetras c || c == ' '

/-- Class of the concession-name captures (IGNORECASE). -/
def clsNombre (c : Char) : Bool :=
  azAZci c || isDigitChar c || c == ' ' || c == ',' || c == '/' ||
    ciMem "¬∫".data c || c == '-'

/-- The same class as clsNombre but compiled without IGNORECASE: the quoted
fallback pattern of extract_nombre_concesion has no flag. -/
def clsNombreCS (c : Char) : Bool :=
  ('A' ≤ c && c ≤ 'Z') || isDigitChar c || c == ' ' || c == ',' || c == '/' ||
    "¬∫".data.contains c || c == '-'

/-- Class of the titular captures (IGNORECASE). -/
def clsTitular (c : Char) : Bool :=
  azAZci c || ciMem mojiLetras c || isDigitChar c || c == ' ' || c == '.' ||
    c == '&' || c == '-'

/-- Class of the rol-nacional id capture (IGNORECASE): digits, dot, dash and
the three characters stored for the en dash. -/
def clsRolId (c : Char) : Bool :=
  isDigitChar c || c == '.' || c == '-' || ciMem "‚Äì".data c

/-- Class stored for the degree / ordinal sign after N. -/
def clsGrado (c : Char) : Bool := ciMem "¬∞∫".data c

/-- Class [N-moji] as stored (IGNORECASE). -/
def clsNMoji (c : Char) : Bool := ciMem "N√ë".data c

/-- Class of the standalone fojas-vuelta filler (IGNORECASE). -/
def clsFvta (c : Char) : Bool :=
  azAZci c || ciMem mojiLetras c || isDigitChar c || c == ' ' || c == '.' ||
    c == ',' || ciMem "¬∫".data c || c == '-'

/-- Class of the juzgado capture (IGNORECASE); the DELCIVILRA letters and the
dash are inside the A-Z range or listed once. -/
def clsJuzgado (c : Char) : Bool :=
  azAZci c || ciMem mojiLetras c || isDigitChar c || isSpaceChar c ||
    c == '-' || c == '.'

/-- Class of the causa-rol capture (IGNORECASE). -/
def clsCausa (c : Char) : Bool :=
  azAZci c || isDigitChar c || c == '.' || c == '-' || c == '/'

/-- Class of the cedula capture. -/
def clsCedula (c : Char) : Bool :=
  isDigitChar c || c == '.' || c == '-' || c == 'k' || c == 'K'

/-- Class of the numeric coordinate captures. -/
def clsNumPunct (c : Char) : Bool :=
  isDigitChar c || c == '.' || c == ','

/-- Class of the separators between a coordinate label and its value. -/
def clsSpColEq (c : Char) : Bool :=
  isSpaceChar c || c == ':' || c == '='

/-- Negated class of the domicilio capture: everything but comma, dot and
semicolon. -/
def clsNoPunct (c : Char) : Bool :=
  !(c == ',' || c == '.' || c == ';')

/-- Class of comma, dot, semicolon. -/
def clsPunct (c : Char) : Bool :=
  c == ',' || c == '.' || c == ';'

/-- Class of the word-form coordinate captures (IGNORECASE): lower-case ASCII
plus the stored stray characters plus whitespace. -/
def clsUtmWord (c : Char) : Bool :=
  azAZci c || ciMem "√°©≠≥∫º±".data c || isSpaceChar c

/-- Class of digits and dots (numeric fojas / numero fallbacks). -/
def clsDigDot (c : Char) : Bool := isDigitChar c || c == '.'

/-- The dot of a pattern compiled without DOTALL. -/
def dotNoNL (c : Char) : Bool := c != '\n'

/-- The dot of a pattern compiled with DOTALL. -/
def dotAll (_ : Char) : Bool := true

/-- One or more whitespace characters. -/
def sp1 : RE := RE.repC isSpaceChar 1 none false

/-- Zero or more whitespace characters. -/
def sp0 : RE := RE.repC isSpaceChar 0 none false

/-- A single whitespace character. -/
def spc : RE := RE.cls isSpaceChar


/-- First conservador pattern (text_parsers.py line 38). -/
def patConservador1 : RE :=
  catRE [litCI "CONSERVADOR", optRE (chCI 'A'), litCI " DE MINAS DE", sp1,
    RE.grp 1 (RE.repC clsLetraEsp 1 none false)]

/-- Second conservador pattern (text_parsers.py line 39). -/
def patConservador2 : RE :=
  catRE [litCI "CONSERVADOR", optRE (chCI 'A'), litCI " DE MINAS", sp1,
    litCI "DE", sp1, RE.grp 1 (RE.repC clsLetraEsp 1 none false)]

/-- Model of extract_conservador. -/
def extract_conservador (t : Str) : Option Str :=
  match reSearch patConservador1 t with
  | some (_, m) =>
      some ("Conservador de Minas de ".data ++ titleStr (stripWs (grpStr t m 1)))
  | none =>
  match reSearch patConservador2 t with
  | some (_, m) =>
      some ("Conservador de Minas de ".data ++ titleStr (stripWs (grpStr t m 1)))
  | none => none

/-- Quoted-or-bare concession-name tail shared by the three keyword
patterns. -/
def nombreTail : RE :=
  catRE [optRE (chC '"'), RE.grp 1 (RE.repC clsNombre 1 none false),
    optRE (chC '"')]

/-- First concession-name pattern. -/
def patNombre1 : RE := catRE [litCI "INSCRIPCION DE MENSURA", sp1, nombreTail]

/-- Second concession-name pattern. -/
def patNombre2 : RE := catRE [litCI "MENSURA", sp1, nombreTail]

/-- Third concession-name pattern; the bracketed letters are the stored
class [moji-O]. -/
def patNombre3 : RE :=
  catRE [litCI "CONCESI", RE.cls (ciMem "√ìO".data), chCI 'N',
    litCI " MINERA DE EXPLOTACI", RE.cls (ciMem "√ìO".data), chCI 'N', sp1,
    nombreTail]

/-- Fallback concession-name pattern: a quoted span, compiled without
IGNORECASE. -/
def patNombreQuoted : RE :=
  catRE [chC '"', RE.grp 1 (RE.repC clsNombreCS 1 none false), chC '"']

/-- One iteration of the keyword-pattern loop of extract_nombre_concesion. -/
def tryNombre (norm : Str) (pat : RE) : Option Str :=
  match reSearch pat norm with
  | some (_, m) =>
      let nombre := stripChars " \"".data (grpStr norm m 1)
      if 4 ≤ nombre.length then some (titleStr nombre) else none
  | none => none

/-- Model of extract_nombre_concesion. -/
def extract_nombre_concesion (t : Str) : Option Str :=
  let norm := normSpaces t
  match tryNombre norm patNombre1 with
  | some r => some r
  | none =>
  match tryNombre norm patNombre2 with
  | some r => some r
  | none =>
  match tryNombre norm patNombre3 with
  | some r => some r
  | none =>
  match reSearch patNombreQuoted norm with
  | some (_, m) =>
      if 4 ≤ (grpStr norm m 1).length then some (titleStr (grpStr norm m 1))
      else none
  | none => none

/-- The candidate terminator of the titular patterns: comma, INSCRITA,
ROLANTE, DEL A-enye-O (as stored), or dot. -/
def titTerm : RE :=
  altsRE (chC ',')
    [catRE [spc, litCI "INSCRITA"],
     catRE [spc, litCI "ROLANTE"],
     catRE [spc, litCI "DEL", sp1, litCI "A√ëO"],
     chC '.']

/-- Lazy titular capture. -/
def grpTitular : RE := RE.grp 1 (RE.repC clsTitular 1 none true)

/-- Caratula titular pattern. -/
def patCaratula : RE :=
  catRE [litCI "INSCRIPCION DE MENSURA", sp1, chC '"',
    RE.repC clsNombre 1 none false, chC '"', sp1, litCI "DE", sp1,
    grpTitular, titTerm]

/-- A NOMBRE DE titular pattern. -/
def patANombre : RE :=
  catRE [chCI 'A', sp1, litCI "NOMBRE", sp1, litCI "DE", sp1, grpTitular,
    titTerm]

/-- DE PROPIEDAD DE titular pattern. -/
def patPropiedad : RE :=
  catRE [litCI "DE", sp1, litCI "PROPIEDAD", sp1, litCI "DE", sp1,
    grpTitular, titTerm]

/-- TITULAR titular pattern. -/
def patTitular : RE :=
  catRE [litCI "TITULAR", sp1, grpTitular, titTerm]

/-- Stripped group-1 captures of all matches of one pattern. -/
def candsOf (p : RE) (t : Str) : List Str :=
  (reFinditer p t).map (fun sm => stripWs (grpStr t sm.2 1))

/-- All titular candidates of a normalized text, in discovery order. -/
def candidatosOf (norm : Str) : List Str :=
  candsOf patCaratula norm ++ candsOf patANombre norm ++
    candsOf patPropiedad norm ++ candsOf patTitular norm

/-- Model of the candidate filter es_titular_valido. -/
def es_titular_valido (s : Str) : Bool :=
  let s_clean := stripChars " ,.;".data s
  if s_clean.isEmpty then false
  else
    let palabras := wordsOf s_clean
    if palabras.length < 2 || palabras.length > 8 then false
    else
      let primeras := (["SE", "LA", "EL", "ENTRE", "CINCUENTA", "CIENTO",
        "CERO", "INTERES"]).map String.data
      !(primeras.contains (upperStr (palabras.headD [])))

/-- Model of the candidate scorer score_titular; the second keyword is the
entity word as stored in the file. -/
def score_titular (s : Str) : Nat :=
  let s_u := upperStr s
  let sco1 :=
    if (["S.A", "LTDA", "LIMITADA", "SPA", "S.P.A"].map String.data).any
        (fun tag => containsSub tag s_u) then 3 else 0
  let sco2 :=
    if (["MINERA", "COMPA√ë√çA", "COMPANIA", "SOCIEDAD"].map String.data).any
        (fun tag => containsSub tag s_u) then sco1 + 2 else sco1
  if 2 ≤ (wordsOf s).length then sco2 + 1 else sco2

/-- Stable descending insertion: the new element goes after every element of
at least its score. -/
def insDesc (f : Str → Nat) (x : Str) : List Str → List Str
  | [] => [x]
  | y :: ys => if f x ≤ f y then y :: insDesc f x ys else x :: y :: ys

/-- Stable sort, descending by score: the model of list.sort(key, reverse)
of Python, which is the unique stable descending order. -/
def sortDescBy (f : Str → Nat) (xs : List Str) : List Str :=
  xs.foldl (fun acc x => insDesc f x acc) []

/-- Filter, strip, rank and choose stage of extract_titular. -/
def selectTitular (candidatos : List Str) : Option Str :=
  if candidatos.isEmpty then none
  else
    let filtrados :=
      (candidatos.filter es_titular_valido).map (stripChars " ,.;".data)
    if filtrados.isEmpty then none
    else
      match sortDescBy score_titular filtrados with
      | [] => none
      | titular :: _ => some (titleStr titular)

/-- Model of extract_titular. -/
def extract_titular (t : Str) : Option Str :=
  selectTitular (candidatosOf (normSpaces t))

/-- First rol-nacional pattern. -/
def patRol1 : RE :=
  catRE [litCI "ROL", sp1, litCI "NACIONAL", sp1, chCI 'N', RE.cls clsGrado,
    sp0, RE.grp 1 (RE.repC clsRolId 1 none false)]

/-- Second rol-nacional pattern. -/
def patRol2 : RE :=
  catRE [litCI "ROL", sp1, litCI "NACIONAL", sp1,
    RE.grp 1 (RE.repC clsRolId 1 none false)]

/-- Model of extract_rol_nacional (searches the raw text). -/
def extract_rol_nacional (t : Str) : Option Str :=
  match reSearch patRol1 t with
  | some (_, m) => some (stripWs (grpStr t m 1))
  | none =>
  match reSearch patRol2 t with
  | some (_, m) => some (stripWs (grpStr t m 1))
  | none => none


/-- Context window pattern after FOJAS. -/
def patFojasCtx : RE :=
  catRE [litCI "FOJAS", sp1, RE.grp 1 (RE.repC dotNoNL 0 (some 80) false)]

/-- Word-bounded VTA. / VUELTA pattern searched inside the window. -/
def patVtaWord : RE :=
  catRE [RE.wb,
    RE.grp 1 (RE.alt (catRE [litCI "VTA", optRE (chC '.')]) (litCI "VUELTA")),
    RE.wb]

/-- Word-form fojas pattern with its terminator alternation. -/
def patFojasTxt : RE :=
  catRE [litCI "FOJAS", sp1, RE.grp 1 (RE.repC clsLetraEsp 1 none true),
    altsRE (catRE [sp1, litCI "VTA", optRE (chC '.')])
      [catRE [sp1, litCI "VUELTA"],
       catRE [sp1, litCI "NUMERO"],
       catRE [sp1, chCI 'N', RE.cls clsGrado],
       catRE [sp1, litCI "DEL", sp1, litCI "REGISTRO"]]]

/-- Numeric fojas fallback pattern. -/
def patFojasNum : RE :=
  catRE [litCI "FOJAS", sp1, RE.grp 1 (RE.repC clsDigDot 1 none false)]

/-- Word-bounded VUELTA, removed from the captured fojas words by re.sub. -/
def patVueltaSub : RE := catRE [RE.wb, litCI "VUELTA", RE.wb]

/-- Word-form inscription-number pattern; the last two terminator
alternatives carry the stored class [N-moji] and the stored literal. -/
def patNumTxt : RE :=
  catRE [litCI "NUMERO", sp1, RE.grp 1 (RE.repC clsLetraEsp 1 none true),
    altsRE (catRE [sp1, litCI "DEL", sp1, litCI "REGISTRO"])
      [catRE [sp1, litCI "DEL", sp1, chCI 'A', RE.cls clsNMoji, chCI 'O'],
       catRE [sp1, litCI "DEL", sp1, litCI "A√ëO"]]]

/-- Numeric inscription-number fallback pattern. -/
def patNumNum : RE :=
  catRE [litCI "NUMERO", sp1, RE.grp 1 (RE.repC clsDigDot 1 none false)]

/-- Word-form year pattern. -/
def patAnioTxt : RE :=
  catRE [litCI "DEL", sp1, chCI 'A', RE.cls clsNMoji, chCI 'O', sp1,
    RE.grp 1 (RE.repC clsLetraEsp 1 none true),
    RE.alt (RE.cls clsPunct) RE.eos]

/-- Numeric year fallback pattern. -/
def patAnioNum : RE :=
  catRE [litCI "DEL", sp1, chCI 'A', RE.cls clsNMoji, chCI 'O', sp1,
    RE.grp 1 (RE.repC isDigitChar 4 (some 4) false)]

/-- Model of int(digits.replace(dot, empty)). -/
def intNoDots (s : Str) : Option Nat :=
  parseIntAll (s.filter (fun c => c != '.'))

/-- Model of extract_fojas_numero_anio; the components of the returned tuple
are folio, inscription number, year, vuelta flag. -/
def extract_fojas_numero_anio (t : Str) :
    Option Nat × Option Nat × Option Nat × Str :=
  let norm := normSpaces t
  let fojas_vuelta : Str :=
    match reSearch patFojasCtx norm with
    | some (_, m) =>
        let ctx := grpStr norm m 1
        if (reSearch patVtaWord ctx).isSome then "vta".data else []
    | none => []
  let fojas_val : Option Nat :=
    match reSearch patFojasTxt norm with
    | some (_, m) =>
        let palabra0 := stripWs (grpStr norm m 1)
        let spans := (reFinditer patVueltaSub palabra0).map
          (fun sm => (sm.1, sm.2.endPos))
        let palabra := stripWs (removeSpans palabra0 spans)
        if palabra ≠ [] then text_number_to_int palabra else none
    | none =>
        match reSearch patFojasNum norm with
        | some (_, m) => intNoDots (grpStr norm m 1)
        | none => none
  let num_val : Option Nat :=
    match reSearch patNumTxt norm with
    | some (_, m) => text_number_to_int (stripWs (grpStr norm m 1))
    | none =>
        match reSearch patNumNum norm with
        | some (_, m) => intNoDots (grpStr norm m 1)
        | none => none
  let anio_val : Option Nat :=
    match reSearch patAnioTxt norm with
    | some (_, m) => text_number_to_int (stripWs (grpStr norm m 1))
    | none =>
        match reSearch patAnioNum norm with
        | some (_, m) => parseIntAll (grpStr norm m 1)
        | none => none
  (fojas_val, num_val, anio_val, fojas_vuelta)

/-- Standalone fojas-vuelta pattern. -/
def patFvta : RE :=
  catRE [litCI "FOJAS", sp1, RE.repC clsFvta 0 none false,
    RE.grp 1 (RE.alt (litCI "VUELTA") (catRE [litCI "VTA", optRE (chC '.')]))]

/-- Model of extract_fojas_vuelta. -/
def extract_fojas_vuelta (t : Str) : Str :=
  if (reSearch patFvta (normSpaces t)).isSome then "vta".data else []

/-- Month alternation of extract_fecha_texto. -/
def mesesAlt : RE :=
  altsRE (litCI "ENERO")
    [litCI "FEBRERO", litCI "MARZO", litCI "ABRIL", litCI "MAYO",
     litCI "JUNIO", litCI "JULIO", litCI "AGOSTO", litCI "SEPTIEMBRE",
     litCI "OCTUBRE", litCI "NOVIEMBRE", litCI "DICIEMBRE"]

/-- Date-phrase pattern of extract_fecha_texto. -/
def patFecha : RE :=
  RE.grp 1 (catRE [RE.repC clsLetraEsp 1 none true, sp1, litCI "DE", sp1,
    mesesAlt, sp1, litCI "DEL", sp1, chCI 'A', RE.cls clsNMoji, chCI 'O',
    sp1, RE.repC clsLetraEsp 1 none false])

/-- Model of extract_fecha_texto (searches the raw text). -/
def extract_fecha_texto (t : Str) : Option Str :=
  match reSearch patFecha t with
  | some (_, m) => some (titleStr (normSpaces (grpStr t m 1)))
  | none => none

/-- First cedula pattern. -/
def patCed1 : RE :=
  catRE [litCI "CEDULA", optRE (litCI " NACIONAL"), litCI " DE IDENTIDAD",
    sp1, chCI 'N', optRE (RE.cls clsGrado), sp0,
    RE.grp 1 (RE.repC clsCedula 1 none false)]

/-- Second cedula pattern. -/
def patCed2 : RE :=
  catRE [litCI "CEDULA", optRE (litCI " NACIONAL"), litCI " DE IDENTIDAD",
    sp1, litCI "NUMERO", sp0, RE.grp 1 (RE.repC clsCedula 1 none false)]

/-- Third cedula pattern. -/
def patCed3 : RE :=
  catRE [litCI "RUT", sp0, RE.grp 1 (RE.repC clsCedula 1 none false)]

/-- Append a nonempty capture to the results unless already present, as the
deduplicating loops of the list extractors do. -/
def dedupStep (res : List Str) (x : Str) : List Str :=
  if x ≠ [] && !(res.contains x) then res ++ [x] else res

/-- Model of extract_cedulas_identidad (searches the raw text). -/
def extract_cedulas_identidad (t : Str) : List Str :=
  ([patCed1, patCed2, patCed3]).foldl
    (fun res p => (reFinditer p t).foldl
      (fun r sm => dedupStep r (stripWs (grpStr t sm.2 1))) res) []

/-- First domicilio pattern. -/
def patDom1 : RE :=
  catRE [litCI "DOMICILIAD", RE.cls (ciMem "OA".data), sp1, litCI "EN", sp1,
    RE.grp 1 (RE.repC clsNoPunct 1 none false)]

/-- Second domicilio pattern. -/
def patDom2 : RE :=
  catRE [litCI "CON", sp1, litCI "DOMICILIO", sp1, litCI "EN", sp1,
    RE.grp 1 (RE.repC clsNoPunct 1 none false)]

/-- Third domicilio pattern. -/
def patDom3 : RE :=
  catRE [litCI "DOMICILIO", sp1, litCI "EN", sp1,
    RE.grp 1 (RE.repC clsNoPunct 1 none false)]

/-- Model of extract_domicilios. -/
def extract_domicilios (t : Str) : List Str :=
  let norm := normSpaces t
  ([patDom1, patDom2, patDom3]).foldl
    (fun res p => (reFinditer p norm).foldl
      (fun r sm => dedupStep r (stripWs (grpStr norm sm.2 1))) res) []

/-- Juzgado pattern. -/
def patJuzgado : RE :=
  RE.grp 1 (catRE [litCI "JUZGADO", sp1, RE.repC clsJuzgado 1 none false])

/-- Model of extract_juzgados. -/
def extract_juzgados (t : Str) : List Str :=
  let norm := normSpaces t
  (reFinditer patJuzgado norm).foldl
    (fun r sm => dedupStep r (stripWs (grpStr norm sm.2 1))) []

/-- First causa-rol pattern. -/
def patCausa1 : RE :=
  catRE [litCI "CAUSA", sp1, litCI "ROL", sp1, chCI 'N',
    optRE (RE.cls clsGrado), sp0, RE.grp 1 (RE.repC clsCausa 1 none false)]

/-- Second causa-rol pattern. -/
def patCausa2 : RE :=
  catRE [litCI "CAUSA", sp1, litCI "ROL", sp1,
    RE.grp 1 (RE.repC clsCausa 1 none false)]

/-- Model of extract_causas_rol. -/
def extract_causas_rol (t : Str) : List Str :=
  let norm := normSpaces t
  ([patCausa1, patCausa2]).foldl
    (fun res p => (reFinditer p norm).foldl
      (fun r sm => dedupStep r (stripWs (grpStr norm sm.2 1))) res) []

/-- A UTM vertex; Python floats are modelled exactly by rationals. -/
structure UTMVertex where
  norte : ℚ
  este : ℚ
  source : Str
deriving DecidableEq

/-- Digit coordinate pattern, norte first; group 1 is the named group norte,
group 2 the named group este. -/
def patUtmNum1 : RE :=
  catRE [chCI 'N', optRE (litCI "ORTE"), RE.repC clsSpColEq 0 none false,
    RE.grp 1 (RE.repC clsNumPunct 1 none false),
    optRE (catRE [sp0, RE.alt (litCI "METROS") (chCI 'M')]),
    RE.repC dotNoNL 0 (some 80) true,
    chCI 'E', optRE (litCI "STE"), RE.repC clsSpColEq 0 none false,
    RE.grp 2 (RE.repC clsNumPunct 1 none false)]

/-- Digit coordinate pattern, este first; group indices keep their names
(1 norte, 2 este). -/
def patUtmNum2 : RE :=
  catRE [chCI 'E', optRE (litCI "STE"), RE.repC clsSpColEq 0 none false,
    RE.grp 2 (RE.repC clsNumPunct 1 none false),
    optRE (catRE [sp0, RE.alt (litCI "METROS") (chCI 'M')]),
    RE.repC dotNoNL 0 (some 80) true,
    chCI 'N', optRE (litCI "ORTE"), RE.repC clsSpColEq 0 none false,
    RE.grp 1 (RE.repC clsNumPunct 1 none false)]

/-- Remove the dots and turn each comma into a dot, as the float conversion
of extract_utm_from_numbers does. -/
def cleanNum (s : Str) : Str :=
  (s.filter (fun c => c != '.')).map (fun c => if c = ',' then '.' else c)

/-- Model of extract_utm_from_numbers. -/
def extract_utm_from_numbers (t : Str) : List UTMVertex :=
  let norm := normSpaces t
  ([patUtmNum1, patUtmNum2]).foldl
    (fun res p => (reFinditer p norm).foldl
      (fun r sm =>
        let n_raw := grpStr norm sm.2 1
        let e_raw := grpStr norm sm.2 2
        if n_raw = [] || e_raw = [] then r
        else
          match parseFloatQ (cleanNum n_raw), parseFloatQ (cleanNum e_raw) with
          | some nv, some ev => r ++ [⟨nv, ev, "digits".data⟩]
          | _, _ => r) res) []

/-- Word coordinate pattern (IGNORECASE and DOTALL); group 1 norte words,
group 2 este words. -/
def patUtmWords : RE :=
  catRE [litCI "NORTE", sp1, RE.grp 1 (RE.repC clsUtmWord 1 none true), sp1,
    litCI "COMA", RE.repC dotAll 0 none true,
    RE.alt (litCI "ESTE") (chCI 'E'), sp1,
    RE.grp 2 (RE.repC clsUtmWord 1 none true), sp1, litCI "COMA"]

/-- Model of extract_utm_from_words. -/
def extract_utm_from_words (t : Str) : List UTMVertex :=
  let norm := normSpaces t
  (reFinditer patUtmWords norm).foldl
    (fun r sm =>
      let norte_txt := stripWs (grpStr norm sm.2 1)
      let este_txt := stripWs (grpStr norm sm.2 2)
      match text_number_to_int norte_txt, text_number_to_int este_txt with
      | some n, some e => r ++ [⟨(n : ℚ), (e : ℚ), "words".data⟩]
      | _, _ => r) []

/-- Model of extract_utm_vertices. -/
def extract_utm_vertices (t : Str) : List UTMVertex :=
  extract_utm_from_numbers t ++ extract_utm_from_words t

/-- The flat record assembled by extract_all. -/
structure ExtractionRecord where
  rol_nacional : Option Str
  nombre_concesion : Option Str
  fojas : Option Nat
  fojas_vuelta : Str
  numero_inscripcion : Option Nat
  anio_inscripcion : Option Nat
  conservador : Option Str
  fecha_texto : Option Str
  titular : Option Str
  utm_vertices : List UTMVertex
  cedulas_identidad : List Str
  domicilios : List Str
  juzgados : List Str
  causas_rol : List Str
deriving DecidableEq

/-- Model of extract_all. -/
def extract_all (t : Str) : ExtractionRecord :=
  let fna := extract_fojas_numero_anio t
  { rol_nacional := extract_rol_nacional t
    nombre_concesion := extract_nombre_concesion t
    fojas := fna.1
    fojas_vuelta := fna.2.2.2
    numero_inscripcion := fna.2.1
    anio_inscripcion := fna.2.2.1
    conservador := extract_conservador t
    fecha_texto := extract_fecha_texto t
    titular := extract_titular t
    utm_vertices := extract_utm_vertices t
    cedulas_identidad := extract_cedulas_identidad t
    domicilios := extract_domicilios t
    juzgados := extract_juzgados t
    causas_rol := extract_causas_rol t }

/-!
Claim theorems.  Each claim of the specification gets one theorem below,
preceded by helper definitions and lemmas where needed.
-/

/-- The fojas_vuelta field of the assembled record is the fourth component of
the folio tuple. -/
theorem extract_all_fojas_vuelta (t : Str) :
    (extract_all t).fojas_vuelta = (extract_fojas_numero_anio t).2.2.2 := rfl

/-- C3: extract_all on the empty string returns, without any failure, the
record with every scalar field null, fojas_vuelta empty, and every list
field empty. -/
theorem c3_extract_all_empty :
    extract_all "".data =
      { rol_nacional := none, nombre_concesion := none, fojas := none,
        fojas_vuelta := "".data, numero_inscripcion := none,
        anio_inscripcion := none, conservador := none, fecha_texto := none,
        titular := none, utm_vertices := [], cedulas_identidad := [],
        domicilios := [], juzgados := [], causas_rol := [] } := by decide

/-- C4: for every input text the vuelta flag computed by
extract_fojas_numero_anio, and hence the fojas_vuelta field of every record
returned by extract_all, is exactly the empty string or exactly "vta". -/
theorem c4_fojas_vuelta_range (t : Str) :
    ((extract_fojas_numero_anio t).2.2.2 = "".data ∨
      (extract_fojas_numero_anio t).2.2.2 = "vta".data) ∧
    ((extract_all t).fojas_vuelta = "".data ∨
      (extract_all t).fojas_vuelta = "vta".data) := by
  have h : (extract_fojas_numero_anio t).2.2.2 = "".data ∨
      (extract_fojas_numero_anio t).2.2.2 = "vta".data := by
    simp only [extract_fojas_numero_anio]
    cases reSearch patFojasCtx (normSpaces t) with
    | none => left; rfl
    | some sm =>
        by_cases hvt :
          (reSearch patVtaWord (grpStr (normSpaces t) sm.2 1)).isSome
        · right; simp [hvt]
        · left; simp [hvt]
  exact ⟨h, by rw [extract_all_fojas_vuelta]; exact h⟩

/-- C6: on the specification's folio example the embedded extractor returns
folio 7, inscription number 5 and the vuelta flag, but no year: the stored
pattern text for the year anchor holds the corrupted character pair in place
of the intended enye, so it cannot match the example. -/
theorem c6_folio_example_evaluation :
    extract_fojas_numero_anio
        "FOJAS SIETE VUELTA NUMERO CINCO DEL REGISTRO ... DEL AÑO DOS MIL VEINTE".data =
      (some 7, some 5, none, "vta".data) := by decide

/-- C7: the digit coordinate strategy applied to the example text yields
exactly one vertex, with the exact values and the digits tag. -/
theorem c7_utm_digits_example :
    extract_utm_from_numbers "Norte 6.333.850 Este 258.350".data =
      [{ norte := 6333850, este := 258350, source := "digits".data }] := by
  decide

/-- C10 counterexample: the standalone vuelta extractor and the tuple version
disagree on a concrete text.  The tuple version sees VUELTA in its window
after FOJAS, while the standalone pattern cannot cross the semicolon, which
is outside its filler class. -/
theorem c10_vuelta_disagreement :
    extract_fojas_vuelta "FOJAS 1; VUELTA".data = "".data ∧
    (extract_fojas_numero_anio "FOJAS 1; VUELTA".data).2.2.2 = "vta".data ∧
    extract_fojas_vuelta "FOJAS 1; VUELTA".data ≠
      (extract_fojas_numero_anio "FOJAS 1; VUELTA".data).2.2.2 := by decide

/-- C10 amended: both vuelta implementations only ever produce the empty
string or "vta", and both report "vta" on the specification's folio example,
but they are not extensionally equal. -/
theorem c10_vuelta_amended :
    (∀ t : Str, extract_fojas_vuelta t = "".data ∨
      extract_fojas_vuelta t = "vta".data) ∧
    extract_fojas_vuelta
        "FOJAS SIETE VUELTA NUMERO CINCO DEL REGISTRO ... DEL AÑO DOS MIL VEINTE".data =
      "vta".data ∧
    (extract_fojas_numero_anio
        "FOJAS SIETE VUELTA NUMERO CINCO DEL REGISTRO ... DEL AÑO DOS MIL VEINTE".data).2.2.2 =
      "vta".data := by
  refine ⟨fun t => ?_, by decide, by decide⟩
  simp only [extract_fojas_vuelta]
  by_cases h : (reSearch patFvta (normSpaces t)).isSome
  · right; simp [h]
  · left; simp [h]

/-- First element attaining the maximal score, scanning in discovery order:
the running best is replaced only by a strictly better element. -/
def firstMaxBy (f : Str → Nat) (xs : List Str) : Option Str :=
  xs.foldl
    (fun o x =>
      match o with
      | none => some x
      | some y => if f x ≤ f y then some y else some x)
    none

/-- Head of a stable descending insertion. -/
theorem head_insDesc (f : Str → Nat) (x : Str) (acc : List Str) :
    (insDesc f x acc).head? =
      match acc.head? with
      | none => some x
      | some y => if f x ≤ f y then some y else some x := by
  cases acc with
  | nil => rfl
  | cons y ys =>
      simp only [insDesc]
      split <;> rename_i h <;> simp [List.head?, h]

/-- Head of the stable descending sort, computed as a fold of the running
best. -/
theorem head_sortDescBy_aux (f : Str → Nat) (l : List Str) :
    ∀ acc : List Str,
      (l.foldl (fun a x => insDesc f x a) acc).head? =
        l.foldl
          (fun o x =>
            match o with
            | none => some x
            | some y => if f x ≤ f y then some y else some x)
          acc.head? := by
  induction l with
  | nil => intro acc; rfl
  | cons x xs ih =>
      intro acc
      simp only [List.foldl]
      rw [ih (insDesc f x acc), head_insDesc]

/-- Ties go to the first-discovered candidate: the head of the stable
descending sort is the first element attaining the maximal score. -/
theorem head_sortDescBy (f : Str → Nat) (l : List Str) :
    (sortDescBy f l).head? = firstMaxBy f l :=
  head_sortDescBy_aux f l []

/-- A fold of the running best starting from a present value stays
present. -/
theorem firstMaxBy_foldl_some (f : Str → Nat) (l : List Str) :
    ∀ y : Str,
      l.foldl
          (fun o x =>
            match o with
            | none => some x
            | some y => if f x ≤ f y then some y else some x)
          (some y) ≠ none := by
  induction l with
  | nil => intro y h; exact Option.noConfusion h
  | cons x xs ih =>
      intro y
      simp only [List.foldl]
      split <;> exact ih _

/-- C5 counterexample: given the two candidates of the specification's
scoring example, the selection stage picks the company candidate but returns
it with the trailing dot stripped, so the stated output string is not
produced. -/
theorem c5_titular_counterexample :
    selectTitular ["Juan Pérez González".data, "Minera Curauma Ltda.".data] =
        some "Minera Curauma Ltda".data ∧
    selectTitular ["Juan Pérez González".data, "Minera Curauma Ltda.".data] ≠
        some "Minera Curauma Ltda.".data := by decide

/-- C5 amended: the titular selection stage keeps candidates with 2 to 8
tokens whose first token is not a listed stray word, ranks the stripped
survivors by score, and returns the first highest-scoring one title-cased;
on the specification's two candidates, in either discovery order, it selects
the company candidate (score 6 against 1) and returns it stripped of the
trailing dot. -/
theorem c5_titular_scoring :
    (∀ cands : List Str,
      selectTitular cands =
        (firstMaxBy score_titular
          ((cands.filter es_titular_valido).map (stripChars " ,.;".data))).map
          titleStr) ∧
    (∀ cs : List Str,
      cs = ["Juan Pérez González".data, "Minera Curauma Ltda.".data] ∨
        cs = ["Minera Curauma Ltda.".data, "Juan Pérez González".data] →
      selectTitular cs = some "Minera Curauma Ltda".data) := by
  constructor
  · intro cands
    cases cands with
    | nil => rfl
    | cons a as =>
        simp only [selectTitular, List.isEmpty_cons, ite_false,
          Bool.false_eq_true]
        by_cases hf :
            (((a :: as).filter es_titular_valido).map
              (stripChars " ,.;".data)) = []
        · simp [hf, firstMaxBy]
        · have hef :
              (((a :: as).filter es_titular_valido).map
                (stripChars " ,.;".data)).isEmpty = false := by
            simpa [List.isEmpty_iff] using hf
          simp only [hef, Bool.false_eq_true, ite_false]
          have hh := head_sortDescBy score_titular
            (((a :: as).filter es_titular_valido).map (stripChars " ,.;".data))
          cases hs : sortDescBy score_titular
              (((a :: as).filter es_titular_valido).map
                (stripChars " ,.;".data)) with
          | nil => rw [hs] at hh; simp at hh; rw [← hh]; rfl
          | cons x xs => rw [hs] at hh; simp at hh; rw [← hh]; rfl
  · rintro cs (rfl | rfl) <;> decide

/-- C5 witness: the amended selection theorem applied at the first discovery
order. -/
theorem c5_titular_scoring_witness :
    selectTitular ["Juan Pérez González".data, "Minera Curauma Ltda.".data] =
      some "Minera Curauma Ltda".data :=
  c5_titular_scoring.2
    ["Juan Pérez González".data, "Minera Curauma Ltda.".data] (Or.inl rfl)

/-- C9: every vertex the word strategy produces carries natural-number
coordinate values (the word spans go through the number converter and the
COMA suffix contributes nothing), so its norte and este have no fractional
part, and its tag is the words tag. -/
theorem c9_utm_words_integral (t : Str) :
    ∀ v ∈ extract_utm_from_words t, ∃ n e : ℕ,
      v.norte = (n : ℚ) ∧ v.este = (e : ℚ) ∧ v.source = "words".data := by
  have key : ∀ (l : List (Nat × MRes)) (acc : List UTMVertex),
      (∀ v ∈ acc, ∃ n e : ℕ,
        v.norte = (n : ℚ) ∧ v.este = (e : ℚ) ∧ v.source = "words".data) →
      ∀ v ∈ l.foldl
          (fun r sm =>
            match text_number_to_int (stripWs (grpStr (normSpaces t) sm.2 1)),
                text_number_to_int (stripWs (grpStr (normSpaces t) sm.2 2)) with
            | some n, some e =>
                r ++ [⟨(n : ℚ), (e : ℚ), "words".data⟩]
            | _, _ => r) acc,
        ∃ n e : ℕ,
          v.norte = (n : ℚ) ∧ v.este = (e : ℚ) ∧ v.source = "words".data := by
    intro l
    induction l with
    | nil => intro acc hacc v hv; exact hacc v hv
    | cons x xs ih =>
        intro acc hacc v hv
        simp only [List.foldl] at hv
        refine ih _ ?_ v hv
        intro w hw
        cases hn : text_number_to_int (stripWs (grpStr (normSpaces t) x.2 1)) with
        | none => rw [hn] at hw; exact hacc w hw
        | some n =>
            cases he : text_number_to_int (stripWs (grpStr (normSpaces t) x.2 2)) with
            | none => rw [hn, he] at hw; exact hacc w hw
            | some e =>
                rw [hn, he] at hw
                rcases List.mem_append.mp hw with hin | hnew
                · exact hacc w hin
                · rcases List.mem_singleton.mp hnew with rfl
                  exact ⟨n, e, rfl, rfl, rfl⟩
  intro v hv
  simp only [extract_utm_from_words] at hv
  exact key _ [] (by intro w hw; exact absurd hw (List.not_mem_nil w)) v hv

/-- C9 witness: the word strategy on a concrete phrase produces the vertex
with coordinates 2000 and 3000, and the theorem exhibits them as natural
numbers. -/
theorem c9_utm_words_integral_witness :
    ((⟨2000, 3000, "words".data⟩ : UTMVertex) ∈
      extract_utm_from_words "NORTE DOS MIL COMA CERO ESTE TRES MIL COMA".data) ∧
    ∃ n e : ℕ,
      ((⟨2000, 3000, "words".data⟩ : UTMVertex).norte = (n : ℚ) ∧
        (⟨2000, 3000, "words".data⟩ : UTMVertex).este = (e : ℚ) ∧
        (⟨2000, 3000, "words".data⟩ : UTMVertex).source = "words".data) :=
  ⟨by decide,
    c9_utm_words_integral "NORTE DOS MIL COMA CERO ESTE TRES MIL COMA".data
      ⟨2000, 3000, "words".data⟩ (by decide)⟩

/-- The tokens the converter scans for an input. -/
def numTokens (t : Str) : List Str := wordsOf (normalize_text_number t)

/-- A token recognised by one of the five dictionaries. -/
def recognizedTok (w : Str) : Bool :=
  (dictLookup UNIDADES w).isSome || (dictLookup ESPECIALES w).isSome ||
    (dictLookup DECENAS w).isSome || (dictLookup CENTENAS w).isSome ||
    (dictLookup MULTIPLICADORES w).isSome

/-- The accumulated total of the converter on an input. -/
def numTotal (t : Str) : Nat :=
  let st := (numTokens t).foldl scanTok (0, 0)
  st.1 + st.2

/-- An option whose isSome test is false is none. -/
theorem isSome_false_none {α : Type} {o : Option α} (h : o.isSome = false) :
    o = none := by
  cases o with
  | none => rfl
  | some v => simp at h

/-- Scanning a token that no dictionary recognises leaves the state
unchanged. -/
theorem scanTok_unrecognized (st : Nat × Nat) (w : Str)
    (h : recognizedTok w = false) : scanTok st w = st := by
  simp only [recognizedTok, Bool.or_eq_false_iff] at h
  obtain ⟨⟨⟨⟨h1, h2⟩, h3⟩, h4⟩, h5⟩ := h
  simp only [scanTok, isSome_false_none h1, isSome_false_none h2,
    isSome_false_none h3, isSome_false_none h4, isSome_false_none h5]
  split <;> rfl

/-- A scan over unrecognised tokens accumulates nothing. -/
theorem foldl_scanTok_unrecognized (l : List Str)
    (h : ∀ w ∈ l, recognizedTok w = false) :
    l.foldl scanTok (0, 0) = (0, 0) := by
  induction l with
  | nil => rfl
  | cons w ws ih =>
      have hw := h w (List.mem_cons_self w ws)
      simp only [List.foldl, scanTok_unrecognized (0, 0) w hw]
      exact ih (fun x hx => h x (List.mem_cons_of_mem w hx))

/-- Normal form of the converter: empty input, empty normalization, or zero
total give null, anything else the total. -/
theorem text_number_to_int_eq (t : Str) :
    text_number_to_int t =
      if t = [] then none
      else if normalize_text_number t = [] then none
      else if numTotal t ≠ 0 then some (numTotal t) else none := rfl

/-- When the normalization is empty the accumulated total is zero. -/
theorem numTotal_of_norm_empty (t : Str)
    (hn : normalize_text_number t = []) : numTotal t = 0 := by
  simp only [numTotal, numTokens, hn]
  rfl

/-- C2: the converter returns null exactly when the input is empty, no token
is recognised, or the accumulated total is zero; any other input yields the
accumulated total, and the function is total by construction. -/
theorem c2_converter_null_behaviour (t : Str) :
    (text_number_to_int t = none ↔
      (t = [] ∨ (∀ w ∈ numTokens t, recognizedTok w = false) ∨
        numTotal t = 0)) ∧
    (text_number_to_int t ≠ none →
      text_number_to_int t = some (numTotal t)) := by
  rw [text_number_to_int_eq]
  by_cases h0 : t = []
  · rw [if_pos h0]
    exact ⟨⟨fun _ => Or.inl h0, fun _ => rfl⟩, fun h => absurd rfl h⟩
  · rw [if_neg h0]
    by_cases hn : normalize_text_number t = []
    · rw [if_pos hn]
      refine ⟨⟨fun _ => Or.inr (Or.inr (numTotal_of_norm_empty t hn)),
        fun _ => rfl⟩, fun h => absurd rfl h⟩
    · rw [if_neg hn]
      by_cases htot : numTotal t = 0
      · rw [if_neg (by simpa using htot)]
        exact ⟨⟨fun _ => Or.inr (Or.inr htot), fun _ => rfl⟩,
          fun h => absurd rfl h⟩
      · rw [if_pos htot]
        refine ⟨⟨fun h => absurd h (Option.some_ne_none _), fun h => ?_⟩,
          fun _ => rfl⟩
        rcases h with rfl | hunrec | h
        · exact absurd rfl h0
        · have : (numTokens t).foldl scanTok (0, 0) = (0, 0) :=
            foldl_scanTok_unrecognized _ hunrec
          have : numTotal t = 0 := by
            simp only [numTotal, this]
          exact absurd this htot
        · exact absurd h htot

/-- C2 witness: the characterisation applied at concrete inputs, discharging
the hypothesis of the value clause. -/
theorem c2_converter_null_behaviour_witness :
    text_number_to_int "doce mil".data = some (numTotal "doce mil".data) :=
  (c2_converter_null_behaviour "doce mil".data).2 (by decide)

/-- A plain word: nonempty, all characters lower-case ASCII letters.  The
grammar below ranges over the unaccented spellings of the recognized
vocabulary. -/
def plainW (w : Str) : Bool :=
  !w.isEmpty && w.all (fun c => 'a' ≤ c && c ≤ 'z')

/-- Lower-casing fixes a lower-case ASCII letter. -/
theorem pyLower_az {c : Char} (h1 : 'a' ≤ c) (h2 : c ≤ 'z') :
    pyLower c = c := by
  have hfind : caseTable.find? (fun p => p.1 == c) = none := by
    rw [List.find?_eq_none]
    intro p hp
    fin_cases hp <;> simp only [beq_iff_eq] <;> rintro rfl <;>
      first
        | exact absurd h1 (by decide)
        | exact absurd h2 (by decide)
  simp [pyLower, hfind]

/-- Accent folding fixes a lower-case ASCII letter. -/
theorem foldAccent_az {c : Char} (h2 : c ≤ 'z') : foldAccent c = c := by
  simp only [foldAccent]
  split_ifs <;>
    first
      | rfl
      | (rename_i hh; subst hh; exact absurd h2 (by decide))

/-- A lower-case ASCII letter is not whitespace. -/
theorem az_not_space {c : Char} (h1 : 'a' ≤ c) : isSpaceChar c = false := by
  simp only [isSpaceChar, Bool.or_eq_false_iff, beq_eq_false_iff_ne, ne_eq]
  refine ⟨⟨⟨⟨⟨?_, ?_⟩, ?_⟩, ?_⟩, ?_⟩, ?_⟩ <;> rintro rfl <;>
    exact absurd h1 (by decide)

/-- Every character of a joined word list satisfies a predicate that holds
on all word characters and on the space. -/
theorem joinWords_chars (P : Char → Prop) :
    ∀ ws : List Str, (∀ w ∈ ws, ∀ c ∈ w, P c) → P ' ' →
      ∀ c ∈ joinWords ws, P c := by
  intro ws
  induction ws with
  | nil => intro _ _ c hc; exact absurd hc (List.not_mem_nil c)
  | cons w ws ih =>
      intro hws hsp c hc
      cases ws with
      | nil =>
          exact hws w (List.mem_cons_self w []) c (by simpa [joinWords] using hc)
      | cons v rest =>
          simp only [joinWords, List.mem_append, List.mem_cons] at hc
          rcases hc with hcw | rfl | hcj
          · exact hws w (List.mem_cons_self w _) c hcw
          · exact hsp
          · exact ih (fun x hx => hws x (List.mem_cons_of_mem w hx)) hsp c hcj

/-- Mapping a function that fixes every element of a list is the identity. -/
theorem map_id_of {f : Char → Char} :
    ∀ l : Str, (∀ c ∈ l, f c = c) → l.map f = l := by
  intro l
  induction l with
  | nil => intro _; rfl
  | cons c cs ih =>
      intro h
      simp only [List.map_cons, h c (List.mem_cons_self c cs),
        ih (fun x hx => h x (List.mem_cons_of_mem c hx))]

/-- Splitting walks through a space-free word by accumulating it. -/
theorem wordsAux_through (w : Str) (hw : ∀ c ∈ w, isSpaceChar c = false) :
    ∀ acc rest, wordsAux acc (w ++ rest) = wordsAux (acc ++ w) rest := by
  induction w with
  | nil => intro acc rest; simp
  | cons c cs ih =>
      intro acc rest
      have hc := hw c (List.mem_cons_self c cs)
      have h1 : wordsAux acc ((c :: cs) ++ rest) =
          wordsAux (acc ++ [c]) (cs ++ rest) := by
        simp [wordsAux, hc]
      rw [h1, ih (fun x hx => hw x (List.mem_cons_of_mem c hx)) (acc ++ [c])
        rest, List.append_assoc]
      rfl

/-- Splitting the space-joined form of a list of nonempty space-free words
recovers the words. -/
theorem wordsOf_joinWords :
    ∀ ws : List Str,
      (∀ w ∈ ws, w ≠ [] ∧ ∀ c ∈ w, isSpaceChar c = false) →
      wordsOf (joinWords ws) = ws := by
  intro ws
  induction ws with
  | nil => intro _; rfl
  | cons w ws ih =>
      intro h
      obtain ⟨hwne, hwsp⟩ := h w (List.mem_cons_self w ws)
      cases ws with
      | nil =>
          show wordsAux [] (joinWords [w]) = [w]
          have : joinWords [w] = w ++ [] := by simp [joinWords]
          rw [this, wordsAux_through w hwsp [] []]
          simp [wordsAux, hwne]
      | cons v rest =>
          show wordsAux [] (joinWords (w :: v :: rest)) = w :: v :: rest
          have : joinWords (w :: v :: rest) =
              w ++ ' ' :: joinWords (v :: rest) := rfl
          rw [this, wordsAux_through w hwsp [] (' ' :: joinWords (v :: rest))]
          have hsp : isSpaceChar ' ' = true := by decide
          simp only [List.nil_append, wordsAux, hsp, if_true]
          rw [if_neg (by simpa [List.isEmpty_iff] using hwne)]
          exact congrArg (w :: ·)
            (ih (fun x hx => h x (List.mem_cons_of_mem w hx)))

/-- A plain word is nonempty and its characters are lower-case letters. -/
theorem plainW_spec {w : Str} (h : plainW w = true) :
    w ≠ [] ∧ ∀ c ∈ w, 'a' ≤ c ∧ c ≤ 'z' := by
  simp only [plainW, Bool.and_eq_true, Bool.not_eq_true', List.isEmpty_iff,
    List.all_eq_true] at h
  obtain ⟨h1, h2⟩ := h
  refine ⟨by simpa [List.isEmpty_iff] using h1, fun c hc => ?_⟩
  have := h2 c hc
  simp only [Bool.and_eq_true, decide_eq_true_eq] at this
  exact this

/-- Normalization fixes the space-joined form of a list of plain words, and
its tokens are exactly the words. -/
theorem normalize_joinWords {ws : List Str}
    (h : ∀ w ∈ ws, plainW w = true) :
    normalize_text_number (joinWords ws) = joinWords ws ∧
      wordsOf (joinWords ws) = ws := by
  have hchars : ∀ c ∈ joinWords ws, ('a' ≤ c ∧ c ≤ 'z') ∨ c = ' ' := by
    refine joinWords_chars (fun c => ('a' ≤ c ∧ c ≤ 'z') ∨ c = ' ') ws ?_
      (Or.inr rfl)
    intro w hw c hc
    exact Or.inl ((plainW_spec (h w hw)).2 c hc)
  have hwords : ∀ w ∈ ws, w ≠ [] ∧ ∀ c ∈ w, isSpaceChar c = false := by
    intro w hw
    obtain ⟨h1, h2⟩ := plainW_spec (h w hw)
    exact ⟨h1, fun c hc => az_not_space (h2 c hc).1⟩
  have hsplit := wordsOf_joinWords ws hwords
  have hlow : (joinWords ws).map pyLower = joinWords ws := by
    refine map_id_of _ (fun c hc => ?_)
    rcases hchars c hc with ⟨h1, h2⟩ | rfl
    · exact pyLower_az h1 h2
    · rfl
  have hfold : (joinWords ws).map foldAccent = joinWords ws := by
    refine map_id_of _ (fun c hc => ?_)
    rcases hchars c hc with ⟨_, h2⟩ | rfl
    · exact foldAccent_az h2
    · rfl
  have hpunct : (joinWords ws).map
      (fun c => if ('a' ≤ c && c ≤ 'z') || isSpaceChar c then c else ' ') =
      joinWords ws := by
    refine map_id_of _ (fun c hc => ?_)
    rcases hchars c hc with ⟨h1, h2⟩ | rfl
    · simp [h1, h2]
    · simp
  constructor
  · show joinWords (wordsOf ((((joinWords ws).map pyLower).map
      foldAccent).map (fun c =>
        if ('a' ≤ c && c ≤ 'z') || isSpaceChar c then c else ' '))) =
      joinWords ws
    rw [hlow, hfold, hpunct, hsplit]
  · exact hsplit

/-- Scanning a units word adds its value to the current accumulator. -/
theorem scanTok_unidades {w : String} {n : Nat} (h : (w, n) ∈ UNIDADES)
    (st : Nat × Nat) : scanTok st w.data = (st.1, st.2 + n) := by
  fin_cases h <;> rfl

/-- Scanning a teens word adds its value to the current accumulator. -/
theorem scanTok_especiales {w : String} {n : Nat} (h : (w, n) ∈ ESPECIALES)
    (st : Nat × Nat) : scanTok st w.data = (st.1, st.2 + n) := by
  fin_cases h <;> rfl

/-- Scanning a tens word adds its value to the current accumulator. -/
theorem scanTok_decenas {w : String} {n : Nat} (h : (w, n) ∈ DECENAS)
    (st : Nat × Nat) : scanTok st w.data = (st.1, st.2 + n) := by
  fin_cases h <;> rfl

/-- Scanning a hundreds word adds its value to the current accumulator. -/
theorem scanTok_centenas {w : String} {n : Nat} (h : (w, n) ∈ CENTENAS)
    (st : Nat × Nat) : scanTok st w.data = (st.1, st.2 + n) := by
  fin_cases h <;> rfl

/-- Scanning a multiplier flushes: an empty current counts as one, and the
product moves to the total. -/
theorem scanTok_mult {w : String} {f : Nat} (h : (w, f) ∈ MULTIPLICADORES)
    (st : Nat × Nat) :
    scanTok st w.data = (st.1 + (if st.2 = 0 then 1 else st.2) * f, 0) := by
  fin_cases h <;> rfl

/-- Scanning the connector leaves the state unchanged. -/
theorem scanTok_y (st : Nat × Nat) : scanTok st ['y'] = st := rfl

/-!
A formal statement of standard Spanish numeral grammar over the recognized
vocabulary, written in its unaccented spelling.  Values are attached to each
derivation.  SubCien derives the phrases for 1 to 99, SubMil for 1 to 999,
MilesPart for 1 to 999999 (no millions word), SpanishNumeral adds the
millions level with an arbitrary thousands coefficient, as standard grammar
allows (e.g. the phrase mil millones names 1000000000), and
SpanishNumeralSimple restricts the millions coefficient to below one
thousand, which is the fragment without nested multipliers.
-/

/-- Phrases for 1..99 from recognized words. -/
inductive SubCien : List Str → Nat → Prop where
  | unit (w : String) (n : Nat) (hm : (w, n) ∈ UNIDADES)
      (hp : plainW w.data = true) (hn : n ≠ 0) : SubCien [w.data] n
  | teen (w : String) (n : Nat) (hm : (w, n) ∈ ESPECIALES)
      (hp : plainW w.data = true) : SubCien [w.data] n
  | tens (w : String) (n : Nat) (hm : (w, n) ∈ DECENAS)
      (hp : plainW w.data = true) : SubCien [w.data] n
  | tensY (w u : String) (d n : Nat) (hd : (w, d) ∈ DECENAS)
      (hpw : plainW w.data = true) (hu : (u, n) ∈ UNIDADES)
      (hpu : plainW u.data = true) (h20 : d ≠ 20) (hn : n ≠ 0) :
      SubCien [w.data, "y".data, u.data] (d + n)

/-- Phrases for 1..999 from recognized words. -/
inductive SubMil : List Str → Nat → Prop where
  | small (ws : List Str) (n : Nat) : SubCien ws n → SubMil ws n
  | cien : SubMil ["cien".data] 100
  | cent (w : String) (c : Nat) (hm : (w, c) ∈ CENTENAS)
      (hp : plainW w.data = true) (hc : 200 ≤ c) : SubMil [w.data] c
  | centRest (w : String) (c : Nat) (ws : List Str) (n : Nat)
      (hm : (w, c) ∈ CENTENAS) (hp : plainW w.data = true)
      (hw : w ≠ "cien") : SubCien ws n → SubMil (w.data :: ws) (c + n)

/-- Phrases for 1..999999: an optional thousands group then an optional
sub-thousand remainder. -/
inductive MilesPart : List Str → Nat → Prop where
  | small (ws : List Str) (n : Nat) : SubMil ws n → MilesPart ws n
  | mil : MilesPart ["mil".data] 1000
  | milRest (ws : List Str) (n : Nat) :
      SubMil ws n → MilesPart ("mil".data :: ws) (1000 + n)
  | cmil (ws : List Str) (n : Nat) (h : 2 ≤ n) :
      SubMil ws n → MilesPart (ws ++ ["mil".data]) (n * 1000)
  | cmilRest (ws : List Str) (n : Nat) (vs : List Str) (m : Nat)
      (h : 2 ≤ n) : SubMil ws n → SubMil vs m →
      MilesPart (ws ++ "mil".data :: vs) (n * 1000 + m)

/-- Standard Spanish numeral phrases from the recognized vocabulary: an
optional millions group, whose coefficient may itself carry thousands, then
an optional remainder. -/
inductive SpanishNumeral : List Str → Nat → Prop where
  | simple (ws : List Str) (n : Nat) : MilesPart ws n → SpanishNumeral ws n
  | unMillon : SpanishNumeral ["un".data, "millon".data] 1000000
  | unMillonRest (vs : List Str) (m : Nat) : MilesPart vs m →
      SpanishNumeral ("un".data :: "millon".data :: vs) (1000000 + m)
  | millones (ws : List Str) (n : Nat) (h : 2 ≤ n) : MilesPart ws n →
      SpanishNumeral (ws ++ ["millones".data]) (n * 1000000)
  | millonesRest (ws : List Str) (n : Nat) (vs : List Str) (m : Nat)
      (h : 2 ≤ n) : MilesPart ws n → MilesPart vs m →
      SpanishNumeral (ws ++ "millones".data :: vs) (n * 1000000 + m)

/-- The fragment of the grammar without nested multipliers: the millions
coefficient stays below one thousand. -/
inductive SpanishNumeralSimple : List Str → Nat → Prop where
  | simple (ws : List Str) (n : Nat) : MilesPart ws n →
      SpanishNumeralSimple ws n
  | unMillon : SpanishNumeralSimple ["un".data, "millon".data] 1000000
  | unMillonRest (vs : List Str) (m : Nat) : MilesPart vs m →
      SpanishNumeralSimple ("un".data :: "millon".data :: vs) (1000000 + m)
  | millones (ws : List Str) (n : Nat) (h : 2 ≤ n) : SubMil ws n →
      SpanishNumeralSimple (ws ++ ["millones".data]) (n * 1000000)
  | millonesRest (ws : List Str) (n : Nat) (vs : List Str) (m : Nat)
      (h : 2 ≤ n) : SubMil ws n → MilesPart vs m →
      SpanishNumeralSimple (ws ++ "millones".data :: vs) (n * 1000000 + m)

/-- The restricted grammar is contained in the standard grammar. -/
theorem simple_sub_standard {ws : List Str} {n : Nat}
    (h : SpanishNumeralSimple ws n) : SpanishNumeral ws n := by
  cases h with
  | simple ws n h => exact .simple ws n h
  | unMillon => exact .unMillon
  | unMillonRest vs m h => exact .unMillonRest vs m h
  | millones ws n h hs => exact .millones ws n h (.small ws n hs)
  | millonesRest ws n vs m h hs hv =>
      exact .millonesRest ws n vs m h (.small ws n hs) hv

/-- Scanning a sub-hundred phrase adds its value to the current
accumulator. -/
theorem subCien_scan {ws : List Str} {n : Nat} (h : SubCien ws n)
    (t c : Nat) : ws.foldl scanTok (t, c) = (t, c + n) := by
  cases h with
  | unit w n hm hp hn => simp [List.foldl, scanTok_unidades hm]
  | teen w n hm hp => simp [List.foldl, scanTok_especiales hm]
  | tens w n hm hp => simp [List.foldl, scanTok_decenas hm]
  | tensY w u d n hd hpw hu hpu h20 hn =>
      simp [List.foldl, scanTok_decenas hd, scanTok_y, scanTok_unidades hu,
        Nat.add_assoc]

/-- Scanning a sub-thousand phrase adds its value to the current
accumulator. -/
theorem subMil_scan {ws : List Str} {n : Nat} (h : SubMil ws n)
    (t c : Nat) : ws.foldl scanTok (t, c) = (t, c + n) := by
  cases h with
  | small ws n hs => exact subCien_scan hs t c
  | cien => simp [List.foldl, scanTok_centenas (show ("cien", 100) ∈ CENTENAS by decide)]
  | cent w cv hm hp hc => simp [List.foldl, scanTok_centenas hm]
  | centRest w cv ws n hm hp hw hs =>
      simp [List.foldl, scanTok_centenas hm, subCien_scan hs, Nat.add_assoc]

/-- Scanning a phrase of the thousands level from an empty current
accumulator produces a split of its value between total and current. -/
theorem milesPart_scan {ws : List Str} {n : Nat} (h : MilesPart ws n)
    (t : Nat) : ∃ a b, ws.foldl scanTok (t, 0) = (t + a, b) ∧ a + b = n := by
  have hmil : ("mil", 1000) ∈ MULTIPLICADORES := by decide
  cases h with
  | small ws n hs =>
      exact ⟨0, n, by simp [subMil_scan hs], by omega⟩
  | mil =>
      exact ⟨1000, 0, by simp [List.foldl, scanTok_mult hmil], by omega⟩
  | milRest ws n hs =>
      refine ⟨1000, n, ?_, by omega⟩
      simp [List.foldl, scanTok_mult hmil, subMil_scan hs]
  | cmil ws n h2 hs =>
      refine ⟨n * 1000, 0, ?_, by omega⟩
      rw [List.foldl_append, subMil_scan hs t 0]
      simp [List.foldl, scanTok_mult hmil]
      omega
  | cmilRest ws n vs m h2 hs hv =>
      refine ⟨n * 1000, m, ?_, by omega⟩
      rw [List.foldl_append, subMil_scan hs t 0]
      simp only [List.foldl, scanTok_mult hmil]
      rw [if_neg (by omega)]
      simpa using subMil_scan hv (t + n * 1000) 0

/-- Scanning a phrase of the restricted grammar from an empty state produces
a split of its value between total and current. -/
theorem snsimple_scan {ws : List Str} {n : Nat}
    (h : SpanishNumeralSimple ws n) (t : Nat) :
    ∃ a b, ws.foldl scanTok (t, 0) = (t + a, b) ∧ a + b = n := by
  have hmm : ("millon", 1000000) ∈ MULTIPLICADORES := by decide
  have hms : ("millones", 1000000) ∈ MULTIPLICADORES := by decide
  have hun : ("un", 1) ∈ UNIDADES := by decide
  cases h with
  | simple ws n hs => exact milesPart_scan hs t
  | unMillon =>
      exact ⟨1000000, 0, by simp [List.foldl, scanTok_unidades hun,
        scanTok_mult hmm], by omega⟩
  | unMillonRest vs m hv =>
      obtain ⟨a, b, hfold, hab⟩ := milesPart_scan hv (t + 1000000)
      refine ⟨1000000 + a, b, ?_, by omega⟩
      simp only [List.foldl, scanTok_unidades hun, scanTok_mult hmm]
      simpa [Nat.add_assoc] using hfold
  | millones ws n h2 hs =>
      refine ⟨n * 1000000, 0, ?_, by omega⟩
      rw [List.foldl_append, subMil_scan hs t 0]
      simp [List.foldl, scanTok_mult hms]
      omega
  | millonesRest ws n vs m h2 hs hv =>
      obtain ⟨a, b, hfold, hab⟩ := milesPart_scan hv (t + n * 1000000)
      refine ⟨n * 1000000 + a, b, ?_, by omega⟩
      rw [List.foldl_append, subMil_scan hs t 0]
      simp only [List.foldl, scanTok_mult hms]
      rw [if_neg (by omega)]
      simpa [Nat.add_assoc] using hfold

/-- Every word of a sub-hundred phrase is plain. -/
theorem subCien_plain {ws : List Str} {n : Nat} (h : SubCien ws n) :
    ∀ w ∈ ws, plainW w = true := by
  cases h with
  | unit w n hm hp hn => intro x hx; simp at hx; subst hx; exact hp
  | teen w n hm hp => intro x hx; simp at hx; subst hx; exact hp
  | tens w n hm hp => intro x hx; simp at hx; subst hx; exact hp
  | tensY w u d n hd hpw hu hpu h20 hn =>
      intro x hx
      simp only [List.mem_cons, List.not_mem_nil, or_false] at hx
      rcases hx with rfl | rfl | rfl
      · exact hpw
      · decide
      · exact hpu

/-- Every word of a sub-thousand phrase is plain. -/
theorem subMil_plain {ws : List Str} {n : Nat} (h : SubMil ws n) :
    ∀ w ∈ ws, plainW w = true := by
  cases h with
  | small ws n hs => exact subCien_plain hs
  | cien => intro x hx; simp at hx; subst hx; decide
  | cent w c hm hp hc => intro x hx; simp at hx; subst hx; exact hp
  | centRest w c ws n hm hp hw hs =>
      intro x hx
      rcases List.mem_cons.mp hx with rfl | hx
      · exact hp
      · exact subCien_plain hs x hx

/-- Every word of a thousands-level phrase is plain. -/
theorem milesPart_plain {ws : List Str} {n : Nat} (h : MilesPart ws n) :
    ∀ w ∈ ws, plainW w = true := by
  cases h with
  | small ws n hs => exact subMil_plain hs
  | mil => intro x hx; simp at hx; subst hx; decide
  | milRest ws n hs =>
      intro x hx
      rcases List.mem_cons.mp hx with rfl | hx
      · decide
      · exact subMil_plain hs x hx
  | cmil ws n h2 hs =>
      intro x hx
      rcases List.mem_append.mp hx with hx | hx
      · exact subMil_plain hs x hx
      · simp at hx; subst hx; decide
  | cmilRest ws n vs m h2 hs hv =>
      intro x hx
      rcases List.mem_append.mp hx with hx | hx
      · exact subMil_plain hs x hx
      · rcases List.mem_cons.mp hx with rfl | hx
        · decide
        · exact subMil_plain hv x hx

/-- Every word of a phrase of the restricted grammar is plain. -/
theorem snsimple_plain {ws : List Str} {n : Nat}
    (h : SpanishNumeralSimple ws n) : ∀ w ∈ ws, plainW w = true := by
  cases h with
  | simple ws n hs => exact milesPart_plain hs
  | unMillon =>
      intro x hx
      simp only [List.mem_cons, List.not_mem_nil, or_false] at hx
      rcases hx with rfl | rfl <;> decide
  | unMillonRest vs m hv =>
      intro x hx
      rcases List.mem_cons.mp hx with rfl | hx
      · decide
      · rcases List.mem_cons.mp hx with rfl | hx
        · decide
        · exact milesPart_plain hv x hx
  | millones ws n h2 hs =>
      intro x hx
      rcases List.mem_append.mp hx with hx | hx
      · exact subMil_plain hs x hx
      · simp at hx; subst hx; decide
  | millonesRest ws n vs m h2 hs hv =>
      intro x hx
      rcases List.mem_append.mp hx with hx | hx
      · exact subMil_plain hs x hx
      · rcases List.mem_cons.mp hx with rfl | hx
        · decide
        · exact milesPart_plain hv x hx

/-- A phrase of the restricted grammar has at least one word. -/
theorem snsimple_ne_nil {ws : List Str} {n : Nat}
    (h : SpanishNumeralSimple ws n) : ws ≠ [] := by
  have hm : ∀ {vs : List Str} {k : Nat}, MilesPart vs k → vs ≠ [] := by
    intro vs k hv
    cases hv with
    | small vs k hs =>
        cases hs with
        | small vs k hc => cases hc <;> simp
        | cien => simp
        | cent w c hm hp hc => simp
        | centRest w c ws n hm hp hw hs => simp
    | mil => simp
    | milRest ws n hs => simp
    | cmil ws n h2 hs => simp
    | cmilRest ws n vs m h2 hs hv => simp
  cases h with
  | simple ws n hs => exact hm hs
  | unMillon => simp
  | unMillonRest vs m hv => simp
  | millones ws n h2 hs => simp
  | millonesRest ws n vs m h2 hs hv => simp

/-- The space-joined form of a nonempty list of plain words is nonempty. -/
theorem joinWords_ne_nil {ws : List Str} (h : ws ≠ [])
    (hp : ∀ w ∈ ws, plainW w = true) : joinWords ws ≠ [] := by
  cases ws with
  | nil => exact absurd rfl h
  | cons w rest =>
      have hw := (plainW_spec (hp w (List.mem_cons_self w rest))).1
      cases rest with
      | nil => simpa [joinWords] using hw
      | cons v r => simp [joinWords]

/-- Teens values are positive. -/
theorem especiales_pos {w : String} {n : Nat} (h : (w, n) ∈ ESPECIALES) :
    1 ≤ n := by fin_cases h <;> decide

/-- Tens values are positive. -/
theorem decenas_pos {w : String} {n : Nat} (h : (w, n) ∈ DECENAS) :
    1 ≤ n := by fin_cases h <;> decide

/-- Hundreds values are positive. -/
theorem centenas_pos {w : String} {n : Nat} (h : (w, n) ∈ CENTENAS) :
    1 ≤ n := by fin_cases h <;> decide

/-- Sub-hundred phrases name positive values. -/
theorem subCien_pos {ws : List Str} {n : Nat} (h : SubCien ws n) : 1 ≤ n := by
  cases h with
  | unit w n hm hp hn => omega
  | teen w n hm hp => exact especiales_pos hm
  | tens w n hm hp => exact decenas_pos hm
  | tensY w u d n hd hpw hu hpu h20 hn =>
      have := decenas_pos hd; omega

/-- Sub-thousand phrases name positive values. -/
theorem subMil_pos {ws : List Str} {n : Nat} (h : SubMil ws n) : 1 ≤ n := by
  cases h with
  | small ws n hs => exact subCien_pos hs
  | cien => omega
  | cent w c hm hp hc => omega
  | centRest w c ws n hm hp hw hs =>
      have := centenas_pos hm; omega

/-- Thousands-level phrases name positive values. -/
theorem milesPart_pos {ws : List Str} {n : Nat} (h : MilesPart ws n) :
    1 ≤ n := by
  cases h with
  | small ws n hs => exact subMil_pos hs
  | mil => omega
  | milRest ws n hs => omega
  | cmil ws n h2 hs => omega
  | cmilRest ws n vs m h2 hs hv =>
      have := subMil_pos hv; omega

/-- Phrases of the restricted grammar name positive values. -/
theorem snsimple_pos {ws : List Str} {n : Nat}
    (h : SpanishNumeralSimple ws n) : 1 ≤ n := by
  cases h with
  | simple ws n hs => exact milesPart_pos hs
  | unMillon => omega
  | unMillonRest vs m hv => omega
  | millones ws n h2 hs => omega
  | millonesRest ws n vs m h2 hs hv =>
      have := milesPart_pos hv; omega

/-- The converter reconstructs the value of every phrase of the restricted
grammar. -/
theorem snsimple_toInt {ws : List Str} {n : Nat}
    (h : SpanishNumeralSimple ws n) :
    text_number_to_int (joinWords ws) = some n := by
  obtain ⟨hnorm, hsplit⟩ := normalize_joinWords (snsimple_plain h)
  have hne : joinWords ws ≠ [] :=
    joinWords_ne_nil (snsimple_ne_nil h) (snsimple_plain h)
  obtain ⟨a, b, hfold, hab⟩ := snsimple_scan h 0
  have htok : numTokens (joinWords ws) = ws := by
    simp only [numTokens, hnorm, hsplit]
  have htot : numTotal (joinWords ws) = n := by
    simp only [numTotal, htok, hfold]
    omega
  rw [text_number_to_int_eq, if_neg hne, if_neg (by rw [hnorm]; exact hne),
    htot, if_pos (by have := snsimple_pos h; omega)]

/-- C1 counterexample: the standard-grammar phrase mil millones names one
thousand million, but the converter returns 1001000 for it, because each
multiplier flushes separately and an empty coefficient counts as one. -/
theorem c1_mil_millones_counterexample :
    SpanishNumeral ["mil".data, "millones".data] 1000000000 ∧
    text_number_to_int (joinWords ["mil".data, "millones".data]) =
      some 1001000 ∧
    (1001000 : Nat) ≠ 1000000000 := by
  refine ⟨?_, by decide, by decide⟩
  have h := SpanishNumeral.millones ["mil".data] 1000 (by norm_num)
    MilesPart.mil
  simpa using h

/-- C1 amended: the converter reconstructs the exact value of every phrase
of the recognized vocabulary under standard Spanish numeral grammar without
nested multipliers, and in particular the five listed conversions hold. -/
theorem c1_number_words_amended :
    (∀ (ws : List Str) (n : Nat), SpanishNumeralSimple ws n →
      text_number_to_int (joinWords ws) = some n) ∧
    text_number_to_int "cinco millones doscientos mil".data = some 5200000 ∧
    text_number_to_int "ciento veinte mil".data = some 120000 ∧
    text_number_to_int "un millon".data = some 1000000 ∧
    text_number_to_int "doce mil".data = some 12000 ∧
    text_number_to_int
        "novecientos noventa y nueve mil novecientos noventa y nueve".data =
      some 999999 :=
  ⟨fun _ _ h => snsimple_toInt h, by decide, by decide, by decide, by decide,
    by decide⟩

/-- C1 witness: the amended theorem applied to a concrete derivation of the
phrase doce mil. -/
theorem c1_number_words_amended_witness :
    SpanishNumeralSimple ["doce".data, "mil".data] 12000 ∧
    text_number_to_int (joinWords ["doce".data, "mil".data]) = some 12000 := by
  have hd : SpanishNumeralSimple ["doce".data, "mil".data] 12000 := by
    have h := SpanishNumeralSimple.simple _ _
      (MilesPart.cmil ["doce".data] 12 (by norm_num)
        (SubMil.small _ _ (SubCien.teen "doce" 12 (by decide) (by decide))))
    simpa using h
  exact ⟨hd, c1_number_words_amended.1 _ _ hd⟩

/-!
Case-insensitivity development for C8.  The engine is proved insensitive to
lower-casing the subject text for every pattern whose character classes are
case-closed, which covers every pattern of the repository except the quoted
fallback of the concession-name extractor.
-/

/-- A case-insensitive character predicate: it cannot distinguish characters
with the same lower-case image. -/
def CIpred (p : Char → Bool) : Prop :=
  ∀ a b : Char, pyLower a = pyLower b → p a = p b

/-- A predicate that agrees on the two columns of the case table is
case-insensitive. -/
theorem ciOfTable (p : Char → Bool)
    (h : caseTable.all (fun pr => p pr.1 == p pr.2) = true) : CIpred p := by
  have hall : ∀ pr ∈ caseTable, p pr.1 = p pr.2 := by
    intro pr hpr
    simpa using List.all_eq_true.mp h pr hpr
  have huni : ∀ c, p c = p (pyLower c) := by
    intro c
    cases hf : caseTable.find? (fun q => q.1 == c) with
    | none => simp [pyLower, hf]
    | some pr =>
        have hmem := List.mem_of_find?_eq_some hf
        have heq : pr.1 = c := by simpa using List.find?_some hf
        simp only [pyLower, hf]
        rw [← heq]
        exact hall pr hmem
  intro a b hab
  calc p a = p (pyLower a) := huni a
    _ = p (pyLower b) := by rw [hab]
    _ = p b := (huni b).symm

/-- Lower-casing is idempotent on the modelled repertoire. -/
theorem lower_lower (c : Char) : pyLower (pyLower c) = pyLower c := by
  cases hf : caseTable.find? (fun q => q.1 == c) with
  | none =>
      have h1 : pyLower c = c := by simp [pyLower, hf]
      rw [h1]
      exact h1
  | some pr =>
      have hmem := List.mem_of_find?_eq_some hf
      have h1 : pyLower c = pr.2 := by simp [pyLower, hf]
      have hfix : ∀ q ∈ caseTable, pyLower q.2 = q.2 := by
        intro q hq
        have : caseTable.all (fun q => pyLower q.2 == q.2) = true := by decide
        simpa using List.all_eq_true.mp this q hq
      rw [h1]
      exact hfix pr hmem

/-- Upper-casing factors through lower-casing. -/
theorem upper_lower (c : Char) : pyUpper (pyLower c) = pyUpper c := by
  cases hf : caseTable.find? (fun q => q.1 == c) with
  | none =>
      have h1 : pyLower c = c := by simp [pyLower, hf]
      rw [h1]
  | some pr =>
      have hmem := List.mem_of_find?_eq_some hf
      have h1 : pyLower c = pr.2 := by simp [pyLower, hf]
      have heq : pr.1 = c := by simpa using List.find?_some hf
      have hfact : ∀ q ∈ caseTable, pyUpper q.2 = pyUpper q.1 := by
        intro q hq
        have : caseTable.all (fun q => pyUpper q.2 == pyUpper q.1) = true := by
          decide
        simpa using List.all_eq_true.mp this q hq
      rw [h1, hfact pr hmem, heq]

/-- A character outside the case table is fixed by lower-casing. -/
theorem pyLower_nonletter {c : Char} (h : isLetterChar c = false) :
    pyLower c = c := by
  have hf : caseTable.find? (fun q => q.1 == c) = none := by
    rw [List.find?_eq_none]
    intro q hq
    simp only [isLetterChar, List.any_eq_false] at h
    have h2 : (q.1 == c || q.2 == c) = false := by simpa using h q hq
    simp only [Bool.or_eq_false_iff] at h2
    simp [h2.1]
  simp [pyLower, hf]

/-- Only the newline maps to the newline under lower-casing. -/
theorem pyLower_eq_nl {c : Char} (h : pyLower c = '\n') : c = '\n' := by
  cases hf : caseTable.find? (fun q => q.1 == c) with
  | none =>
      have h1 : pyLower c = c := by simp [pyLower, hf]
      rw [← h1]; exact h
  | some pr =>
      have hmem := List.mem_of_find?_eq_some hf
      have h1 : pyLower c = pr.2 := by simp [pyLower, hf]
      have : ∀ q ∈ caseTable, q.2 ≠ '\n' := by
        intro q hq
        have hdec : caseTable.all (fun q => !(q.2 == '\n')) = true := by decide
        simpa using List.all_eq_true.mp hdec q hq
      exact absurd (h1 ▸ h) (this pr hmem)

/-- Letters are case-insensitively recognisable. -/
theorem ci_isLetter : CIpred isLetterChar := ciOfTable _ (by decide)

/-- Word characters are case-insensitively recognisable. -/
theorem ci_isWord : CIpred isWordChar := ciOfTable _ (by decide)

/-- Unary form of case insensitivity: the predicate agrees on a character
and its lower-case image. -/
theorem ci_unary {p : Char → Bool} (hp : CIpred p) (c : Char) :
    p (pyLower c) = p c :=
  hp (pyLower c) c (lower_lower c)

/-- A pattern all of whose character classes are case-insensitive. -/
def REok : RE → Prop
  | .eps => True
  | .cls p => CIpred p
  | .seq a b => REok a ∧ REok b
  | .alt a b => REok a ∧ REok b
  | .grp _ r => REok r
  | .repC p _ _ _ => CIpred p
  | .wb => True
  | .eos => True

/-- The character of the lower-cased text at a position. -/
theorem charAt_lower (t : Str) (i : Nat) :
    charAt (lowerStr t) i = (charAt t i).map pyLower := by
  simp [charAt, lowerStr, List.get?_map]

/-- Lower-casing preserves length. -/
theorem lowerStr_length (t : Str) : (lowerStr t).length = t.length := by
  simp [lowerStr]

/-- Run length of a case-insensitive class is unchanged by lower-casing. -/
theorem runLen_lower {p : Char → Bool} (hp : CIpred p) :
    ∀ l : Str, runLen p (l.map pyLower) = runLen p l := by
  intro l
  induction l with
  | nil => rfl
  | cons c cs ih =>
      simp only [List.map_cons, runLen, ci_unary hp c, ih]

/-- Matching a case-insensitive pattern on the lower-cased text gives the
same result as on the original text. -/
theorem matchR_lower (t : Str) :
    ∀ r : RE, REok r → ∀ (pos : Nat) (g : Groups)
      (k : Nat → Groups → Option MRes),
      matchR (lowerStr t) r pos g k = matchR t r pos g k := by
  intro r
  induction r with
  | eps => intro _ pos g k; rfl
  | cls p =>
      intro hok pos g k
      simp only [matchR, charAt_lower]
      cases charAt t pos with
      | none => rfl
      | some c => simp [ci_unary hok c]
  | seq a b iha ihb =>
      intro hok pos g k
      simp only [matchR]
      rw [iha hok.1 pos g _]
      have : (fun p1 g1 => matchR (lowerStr t) b p1 g1 k) =
          (fun p1 g1 => matchR t b p1 g1 k) :=
        funext fun p1 => funext fun g1 => ihb hok.2 p1 g1 k
      rw [this]
  | alt a b iha ihb =>
      intro hok pos g k
      simp only [matchR]
      rw [iha hok.1 pos g k, ihb hok.2 pos g k]
  | grp i r ih =>
      intro hok pos g k
      simp only [matchR]
      exact ih hok pos g _
  | repC p lo hi lz =>
      intro hok pos g k
      simp only [matchR]
      rw [show (lowerStr t).drop pos = (t.drop pos).map pyLower from
        (List.map_drop pyLower t pos).symm]
      rw [runLen_lower hok]
  | wb =>
      intro _ pos g k
      simp only [matchR, charAt_lower]
      have h1 : wordOpt ((charAt t pos).map pyLower) =
          wordOpt (charAt t pos) := by
        cases charAt t pos with
        | none => rfl
        | some c => simp [wordOpt, ci_unary ci_isWord c]
      have h2 : wordOpt (if pos = 0 then none
            else (charAt t (pos - 1)).map pyLower) =
          wordOpt (if pos = 0 then none else charAt t (pos - 1)) := by
        split
        · rfl
        · cases charAt t (pos - 1) with
          | none => rfl
          | some c => simp [wordOpt, ci_unary ci_isWord c]
      rw [h1, h2]
  | eos =>
      intro _ pos g k
      simp only [matchR, lowerStr_length, charAt_lower]
      have hiff : ((charAt t pos).map pyLower = some '\n') ↔
          (charAt t pos = some '\n') := by
        cases charAt t pos with
        | none => simp
        | some c =>
            constructor
            · intro h
              have hc : c = '\n' := pyLower_eq_nl (by simpa using h)
              rw [hc]
            · intro h
              rw [h]
              rfl
      rw [if_congr (by rw [hiff]) rfl rfl]

/-- Leftmost search on the lower-cased text agrees with the original for a
case-insensitive pattern. -/
theorem searchFromAux_lower (t : Str) (r : RE) (hok : REok r) :
    ∀ fuel pos, searchFromAux (lowerStr t) r fuel pos =
      searchFromAux t r fuel pos := by
  intro fuel
  induction fuel with
  | zero => intro pos; rfl
  | succ n ih =>
      intro pos
      simp only [searchFromAux, matchR_lower t r hok, lowerStr_length]
      cases matchR t r pos [] (fun e g => some ⟨e, g⟩) with
      | none => simp [ih]
      | some m => rfl

/-- re.search on the lower-cased text agrees with the original for a
case-insensitive pattern. -/
theorem reSearch_lower (t : Str) (r : RE) (hok : REok r) :
    reSearch r (lowerStr t) = reSearch r t := by
  simp [reSearch, lowerStr_length, searchFromAux_lower t r hok]

/-- re.finditer on the lower-cased text agrees with the original for a
case-insensitive pattern. -/
theorem reFinditer_lower (t : Str) (r : RE) (hok : REok r) :
    reFinditer r (lowerStr t) = reFinditer r t := by
  have haux : ∀ fuel pos, finditerAux (lowerStr t) r fuel pos =
      finditerAux t r fuel pos := by
    intro fuel
    induction fuel with
    | zero => intro pos; rfl
    | succ n ih =>
        intro pos
        simp only [finditerAux, lowerStr_length, searchFromAux_lower t r hok]
        cases searchFromAux t r (t.length + 1) pos with
        | none => rfl
        | some sm => simp [ih]
  simp [reFinditer, lowerStr_length, haux]

/-- Slicing commutes with lower-casing. -/
theorem sliceStr_lower (t : Str) (s e : Nat) :
    sliceStr (lowerStr t) s e = lowerStr (sliceStr t s e) := by
  simp [sliceStr, lowerStr, List.map_drop, List.map_take]

/-- Group capture on the lower-cased text is the lower-cased capture. -/
theorem grpStr_lower (t : Str) (m : MRes) (i : Nat) :
    grpStr (lowerStr t) m i = lowerStr (grpStr t m i) := by
  simp only [grpStr]
  cases grpSpan m i with
  | none => rfl
  | some se => exact sliceStr_lower t se.1 se.2

/-- Prefix-dropping for a case-insensitive predicate commutes with
lower-casing. -/
theorem dropWhileB_lower {p : Char → Bool} (hp : CIpred p) :
    ∀ l : Str, dropWhileB p (l.map pyLower) = (dropWhileB p l).map pyLower := by
  intro l
  induction l with
  | nil => rfl
  | cons c cs ih =>
      simp only [List.map_cons, dropWhileB, ci_unary hp c]
      split <;> simp [ih]

/-- Whitespace characters are case-insensitively recognisable. -/
theorem ci_isSpace : CIpred isSpaceChar := ciOfTable _ (by decide)

/-- Whitespace stripping commutes with lower-casing. -/
theorem stripWs_lower (t : Str) :
    stripWs (lowerStr t) = lowerStr (stripWs t) := by
  simp only [stripWs, lowerStr]
  rw [← List.map_reverse, dropWhileB_lower ci_isSpace, ← List.map_reverse,
    dropWhileB_lower ci_isSpace]

/-- Membership in a case-free character set is case-insensitive when the set
contains no cased letters; stated for the two strip sets the source uses. -/
theorem ci_stripPunct : CIpred (fun c => " ,.;".data.contains c) :=
  ciOfTable _ (by decide)

/-- The quote-and-space strip set is case-insensitive. -/
theorem ci_stripQuote : CIpred (fun c => " \"".data.contains c) :=
  ciOfTable _ (by decide)

/-- Character-set stripping commutes with lower-casing for a
case-insensitive set. -/
theorem stripChars_lower {set : Str}
    (hp : CIpred (fun c => set.contains c)) (t : Str) :
    stripChars set (lowerStr t) = lowerStr (stripChars set t) := by
  simp only [stripChars, lowerStr]
  rw [← List.map_reverse, dropWhileB_lower hp, ← List.map_reverse,
    dropWhileB_lower hp]

/-- Word splitting commutes with lower-casing. -/
theorem wordsAux_lower :
    ∀ (l acc : Str), wordsAux (acc.map pyLower) (l.map pyLower) =
      (wordsAux acc l).map (List.map pyLower) := by
  intro l
  induction l with
  | nil =>
      intro acc
      simp only [List.map_nil, wordsAux, List.isEmpty_eq_true,
        List.map_eq_nil_iff]
      by_cases h : acc = []
      · subst h; simp [wordsAux]
      · rw [if_neg h, if_neg (by simpa [List.isEmpty_iff] using h)]
        simp [wordsAux, List.isEmpty_iff, h]
  | cons c cs ih =>
      intro acc
      simp only [List.map_cons, wordsAux, ci_unary ci_isSpace c]
      split
      · by_cases h : acc = []
        · subst h
          simpa using ih []
        · rw [if_neg (by simpa [List.isEmpty_iff, List.map_eq_nil_iff] using h),
            if_neg (by simpa [List.isEmpty_iff] using h)]
          have h0 := ih []
          simp only [List.map_nil] at h0
          rw [h0]
          rfl
      · rw [show acc.map pyLower ++ [pyLower c] =
          (acc ++ [c]).map pyLower by simp, ih (acc ++ [c])]

/-- Splitting the lower-cased text gives the lower-cased words. -/
theorem wordsOf_lower (t : Str) :
    wordsOf (lowerStr t) = (wordsOf t).map (List.map pyLower) := by
  simpa [wordsOf, lowerStr] using wordsAux_lower t []

/-- Joining commutes with lower-casing. -/
theorem joinWords_lower :
    ∀ ws : List Str, joinWords (ws.map (List.map pyLower)) =
      lowerStr (joinWords ws) := by
  intro ws
  induction ws with
  | nil => rfl
  | cons w rest ih =>
      cases rest with
      | nil => simp [joinWords, lowerStr]
      | cons v r =>
          simp only [List.map_cons, joinWords, lowerStr, List.map_append,
            List.map_cons]
          have hx : joinWords (List.map pyLower v ::
              List.map (List.map pyLower) r) =
              List.map pyLower (joinWords (v :: r)) := by
            simpa [lowerStr] using ih
          rw [hx]
          rfl

/-- Whitespace normalization commutes with lower-casing. -/
theorem normSpaces_lower (t : Str) :
    normSpaces (lowerStr t) = lowerStr (normSpaces t) := by
  simp only [normSpaces]
  rw [wordsOf_lower, joinWords_lower]

/-- Title-casing the lower-cased text gives the title-cased original. -/
theorem titleAux_lower :
    ∀ (l : Str) (flag : Bool), titleAux flag (l.map pyLower) =
      titleAux flag l := by
  intro l
  induction l with
  | nil => intro flag; rfl
  | cons c cs ih =>
      intro flag
      simp only [List.map_cons, titleAux, ci_unary ci_isLetter c]
      by_cases h : isLetterChar c = true
      · simp only [h, if_true, lower_lower, upper_lower, ih]
      · rw [if_neg h, if_neg h, pyLower_nonletter (by simpa using h), ih]

/-- Title-casing ignores the case of its input. -/
theorem titleStr_lower (l : Str) : titleStr (lowerStr l) = titleStr l :=
  titleAux_lower l false

/-- Upper-casing ignores the case of its input. -/
theorem upperStr_lower (l : Str) : upperStr (lowerStr l) = upperStr l := by
  simp only [upperStr, lowerStr, List.map_map]
  exact List.map_congr_left (fun c _ => upper_lower c)

/-- Digits are case-insensitively recognisable. -/
theorem ci_isDigit : CIpred isDigitChar := ciOfTable _ (by decide)

/-- Being distinct from the dot is case-insensitive. -/
theorem ci_notDot : CIpred (fun c => c != '.') := ciOfTable _ (by decide)

/-- Lower-casing fixes a digit. -/
theorem pyLower_digit {c : Char} (h : isDigitChar c = true) :
    pyLower c = c := by
  have hf : caseTable.find? (fun q => q.1 == c) = none := by
    rw [List.find?_eq_none]
    intro q hq
    fin_cases hq <;> simp only [beq_iff_eq] <;> rintro rfl <;>
      exact absurd h (by decide)
  simp [pyLower, hf]

/-- Digit testing ignores lower-casing of the text. -/
theorem all_digit_lower (t : Str) :
    (lowerStr t).all isDigitChar = t.all isDigitChar := by
  induction t with
  | nil => rfl
  | cons c cs ih =>
      simp only [lowerStr, List.map_cons, List.all_cons] at *
      rw [ci_unary ci_isDigit c, ih]

/-- Integer parsing ignores lower-casing of the text. -/
theorem parseIntAll_lower (t : Str) :
    parseIntAll (lowerStr t) = parseIntAll t := by
  by_cases hd : t.all isDigitChar = true
  · have hfix : lowerStr t = t :=
      map_id_of t (fun c hc => pyLower_digit (List.all_eq_true.mp hd c hc))
    rw [hfix]
  · have hdf : t.all isDigitChar = false := by simpa using hd
    have hl : (lowerStr t).all isDigitChar = false := by
      rw [all_digit_lower, hdf]
    simp [parseIntAll, hdf, hl]

/-- Filtering by a case-insensitive predicate commutes with lower-casing. -/
theorem filter_lower {p : Char → Bool} (hp : CIpred p) (t : Str) :
    (lowerStr t).filter p = lowerStr (t.filter p) := by
  induction t with
  | nil => rfl
  | cons c cs ih =>
      simp only [lowerStr, List.map_cons, List.filter_cons] at *
      rw [ci_unary hp c]
      split <;> simp [ih, lowerStr]

/-- The dot-free integer conversion ignores lower-casing. -/
theorem intNoDots_lower (s : Str) : intNoDots (lowerStr s) = intNoDots s := by
  simp only [intNoDots]
  rw [filter_lower ci_notDot, parseIntAll_lower]

/-- Span removal commutes with lower-casing. -/
theorem removeSpansFrom_lower (t : Str) :
    ∀ (spans : List (Nat × Nat)) (start : Nat),
      removeSpansFrom (lowerStr t) start spans =
        lowerStr (removeSpansFrom t start spans) := by
  intro spans
  induction spans with
  | nil => intro start; simp [removeSpansFrom, lowerStr, List.map_drop]
  | cons se rest ih =>
      intro start
      simp only [removeSpansFrom, lowerStr, List.map_append]
      have hs := sliceStr_lower t start se.1
      simp only [lowerStr] at hs
      have := ih se.2
      simp only [lowerStr] at this
      rw [hs, this]

/-- The converter ignores lower-casing of its input. -/
theorem toInt_lower (t : Str) :
    text_number_to_int (lowerStr t) = text_number_to_int t := by
  have hmap : (lowerStr t).map pyLower = t.map pyLower := by
    simp only [lowerStr, List.map_map]
    exact List.map_congr_left (fun c _ => lower_lower c)
  have hnorm : normalize_text_number (lowerStr t) = normalize_text_number t := by
    simp only [normalize_text_number, hmap]
  have htot : numTotal (lowerStr t) = numTotal t := by
    simp only [numTotal, numTokens, hnorm]
  rw [text_number_to_int_eq, text_number_to_int_eq, hnorm, htot]
  by_cases h : t = []
  · subst h; rfl
  · rw [if_neg (by simpa [lowerStr] using h), if_neg h]

/-- Sequencing preserves class case-insensitivity. -/
theorem REok_seq {a b : RE} (ha : REok a) (hb : REok b) :
    REok (RE.seq a b) := ⟨ha, hb⟩

/-- Alternation preserves class case-insensitivity. -/
theorem REok_alt {a b : RE} (ha : REok a) (hb : REok b) :
    REok (RE.alt a b) := ⟨ha, hb⟩

/-- Grouping preserves class case-insensitivity. -/
theorem REok_grp {i : Nat} {r : RE} (h : REok r) : REok (RE.grp i r) := h

/-- Concatenation preserves class case-insensitivity. -/
theorem REok_catRE {rs : List RE} (h : ∀ r ∈ rs, REok r) :
    REok (catRE rs) := by
  induction rs with
  | nil => trivial
  | cons r rest ih =>
      exact ⟨h r (List.mem_cons_self r rest),
        ih (fun x hx => h x (List.mem_cons_of_mem r hx))⟩

/-- Prioritized alternation preserves class case-insensitivity. -/
theorem REok_altsRE {r : RE} {rs : List RE} (h0 : REok r)
    (h : ∀ x ∈ rs, REok x) : REok (altsRE r rs) := by
  induction rs generalizing r with
  | nil => exact h0
  | cons x rest ih =>
      exact ih (REok_alt h0 (h x (List.mem_cons_self x rest)))
        (fun y hy => h y (List.mem_cons_of_mem x hy))

/-- The optional combinator preserves class case-insensitivity. -/
theorem REok_optRE {r : RE} (h : REok r) : REok (optRE r) :=
  REok_alt h trivial

/-- A case-insensitive literal character is a case-insensitive pattern. -/
theorem REok_chCI (c : Char) : REok (chCI c) := by
  intro a b hab
  simp only [hab]

/-- A case-insensitive literal string is a case-insensitive pattern. -/
theorem REok_litCI (s : String) : REok (litCI s) := by
  refine REok_catRE ?_
  intro r hr
  rcases List.mem_map.mp hr with ⟨c, _, rfl⟩
  exact REok_chCI c

/-- A case-sensitive literal over an uncased character is a case-insensitive
pattern; the hypothesis checks the character against the case table. -/
theorem REok_chC (c : Char)
    (h : caseTable.all (fun pr => (pr.1 == c) == (pr.2 == c)) = true) :
    REok (chC c) := ciOfTable _ h

/-- Case insensitivity of the class predicates used by the extractors under
study. -/
theorem ci_clsLetraEsp : CIpred clsLetraEsp := ciOfTable _ (by decide)

/-- The concession-name class (IGNORECASE form) is case-insensitive. -/
theorem ci_clsNombre : CIpred clsNombre := ciOfTable _ (by decide)

/-- The titular class is case-insensitive. -/
theorem ci_clsTitular : CIpred clsTitular := ciOfTable _ (by decide)

/-- The degree-sign class is case-insensitive. -/
theorem ci_clsGrado : CIpred clsGrado := ciOfTable _ (by decide)

/-- The stored N-class is case-insensitive. -/
theorem ci_clsNMoji : CIpred clsNMoji := ciOfTable _ (by decide)

/-- The standalone vuelta filler class is case-insensitive. -/
theorem ci_clsFvta : CIpred clsFvta := ciOfTable _ (by decide)

/-- The digit-and-dot class is case-insensitive. -/
theorem ci_clsDigDot : CIpred clsDigDot := ciOfTable _ (by decide)

/-- The dot without DOTALL is case-insensitive. -/
theorem ci_dotNoNL : CIpred dotNoNL := ciOfTable _ (by decide)

/-- The comma-dot-semicolon class is case-insensitive. -/
theorem ci_clsPunct : CIpred clsPunct := ciOfTable _ (by decide)

/-- The standalone vuelta pattern is case-insensitive. -/
theorem REok_patFvta : REok patFvta := by
  unfold patFvta
  refine REok_catRE ?_
  intro r hr
  fin_cases hr
  · exact REok_litCI _
  · exact ci_isSpace
  · exact ci_clsFvta
  · exact REok_grp (REok_alt (REok_litCI _)
      (REok_catRE (by
        intro x hx
        fin_cases hx
        · exact REok_litCI _
        · exact REok_optRE (REok_chC '.' (by decide)))))

/-- The first conservador pattern is case-insensitive. -/
theorem REok_patConservador1 : REok patConservador1 := by
  unfold patConservador1
  refine REok_catRE ?_
  intro r hr
  fin_cases hr
  · exact REok_litCI _
  · exact REok_optRE (REok_chCI _)
  · exact REok_litCI _
  · exact ci_isSpace
  · exact REok_grp ci_clsLetraEsp

/-- The second conservador pattern is case-insensitive. -/
theorem REok_patConservador2 : REok patConservador2 := by
  unfold patConservador2
  refine REok_catRE ?_
  intro r hr
  fin_cases hr
  · exact REok_litCI _
  · exact REok_optRE (REok_chCI _)
  · exact REok_litCI _
  · exact ci_isSpace
  · exact REok_litCI _
  · exact ci_isSpace
  · exact REok_grp ci_clsLetraEsp

/-- The titular terminator is case-insensitive. -/
theorem REok_titTerm : REok titTerm := by
  unfold titTerm
  refine REok_altsRE (REok_chC ',' (by decide)) ?_
  intro x hx
  fin_cases hx
  · exact REok_catRE (by
      intro y hy; fin_cases hy
      · exact ci_isSpace
      · exact REok_litCI _)
  · exact REok_catRE (by
      intro y hy; fin_cases hy
      · exact ci_isSpace
      · exact REok_litCI _)
  · exact REok_catRE (by
      intro y hy; fin_cases hy
      · exact ci_isSpace
      · exact REok_litCI _
      · exact ci_isSpace
      · exact REok_litCI _)
  · exact REok_chC '.' (by decide)

/-- The titular capture is case-insensitive. -/
theorem REok_grpTitular : REok grpTitular := REok_grp ci_clsTitular

/-- The caratula titular pattern is case-insensitive. -/
theorem REok_patCaratula : REok patCaratula := by
  unfold patCaratula
  refine REok_catRE ?_
  intro r hr
  fin_cases hr
  · exact REok_litCI _
  · exact ci_isSpace
  · exact REok_chC '"' (by decide)
  · exact ci_clsNombre
  · exact REok_chC '"' (by decide)
  · exact ci_isSpace
  · exact REok_litCI _
  · exact ci_isSpace
  · exact REok_grpTitular
  · exact REok_titTerm

/-- The A NOMBRE DE pattern is case-insensitive. -/
theorem REok_patANombre : REok patANombre := by
  unfold patANombre
  refine REok_catRE ?_
  intro r hr
  fin_cases hr
  · exact REok_chCI _
  · exact ci_isSpace
  · exact REok_litCI _
  · exact ci_isSpace
  · exact REok_litCI _
  · exact ci_isSpace
  · exact REok_grpTitular
  · exact REok_titTerm

/-- The DE PROPIEDAD DE pattern is case-insensitive. -/
theorem REok_patPropiedad : REok patPropiedad := by
  unfold patPropiedad
  refine REok_catRE ?_
  intro r hr
  fin_cases hr
  · exact REok_litCI _
  · exact ci_isSpace
  · exact REok_litCI _
  · exact ci_isSpace
  · exact REok_litCI _
  · exact ci_isSpace
  · exact REok_grpTitular
  · exact REok_titTerm

/-- The TITULAR pattern is case-insensitive. -/
theorem REok_patTitular : REok patTitular := by
  unfold patTitular
  refine REok_catRE ?_
  intro r hr
  fin_cases hr
  · exact REok_litCI _
  · exact ci_isSpace
  · exact REok_grpTitular
  · exact REok_titTerm

/-- The FOJAS context pattern is case-insensitive. -/
theorem REok_patFojasCtx : REok patFojasCtx := by
  unfold patFojasCtx
  refine REok_catRE ?_
  intro r hr
  fin_cases hr
  · exact REok_litCI _
  · exact ci_isSpace
  · exact REok_grp ci_dotNoNL

/-- The word-bounded vuelta pattern is case-insensitive. -/
theorem REok_patVtaWord : REok patVtaWord := by
  unfold patVtaWord
  refine REok_catRE ?_
  intro r hr
  fin_cases hr
  · trivial
  · exact REok_grp (REok_alt
      (REok_catRE (by
        intro x hx; fin_cases hx
        · exact REok_litCI _
        · exact REok_optRE (REok_chC '.' (by decide))))
      (REok_litCI _))
  · trivial

/-- The word-form fojas pattern is case-insensitive. -/
theorem REok_patFojasTxt : REok patFojasTxt := by
  unfold patFojasTxt
  refine REok_catRE ?_
  intro r hr
  fin_cases hr
  · exact REok_litCI _
  · exact ci_isSpace
  · exact REok_grp ci_clsLetraEsp
  · refine REok_altsRE (REok_catRE (by
      intro x hx; fin_cases hx
      · exact ci_isSpace
      · exact REok_litCI _
      · exact REok_optRE (REok_chC '.' (by decide)))) ?_
    intro x hx
    fin_cases hx
    · exact REok_catRE (by
        intro y hy; fin_cases hy
        · exact ci_isSpace
        · exact REok_litCI _)
    · exact REok_catRE (by
        intro y hy; fin_cases hy
        · exact ci_isSpace
        · exact REok_litCI _)
    · exact REok_catRE (by
        intro y hy; fin_cases hy
        · exact ci_isSpace
        · exact REok_chCI _
        · exact ci_clsGrado)
    · exact REok_catRE (by
        intro y hy; fin_cases hy
        · exact ci_isSpace
        · exact REok_litCI _
        · exact ci_isSpace
        · exact REok_litCI _)

/-- The numeric fojas fallback pattern is case-insensitive. -/
theorem REok_patFojasNum : REok patFojasNum := by
  unfold patFojasNum
  refine REok_catRE ?_
  intro r hr
  fin_cases hr
  · exact REok_litCI _
  · exact ci_isSpace
  · exact REok_grp ci_clsDigDot

/-- The word-bounded VUELTA pattern is case-insensitive. -/
theorem REok_patVueltaSub : REok patVueltaSub := by
  unfold patVueltaSub
  refine REok_catRE ?_
  intro r hr
  fin_cases hr
  · trivial
  · exact REok_litCI _
  · trivial

/-- The word-form inscription-number pattern is case-insensitive. -/
theorem REok_patNumTxt : REok patNumTxt := by
  unfold patNumTxt
  refine REok_catRE ?_
  intro r hr
  fin_cases hr
  · exact REok_litCI _
  · exact ci_isSpace
  · exact REok_grp ci_clsLetraEsp
  · refine REok_altsRE (REok_catRE (by
      intro x hx; fin_cases hx
      · exact ci_isSpace
      · exact REok_litCI _
      · exact ci_isSpace
      · exact REok_litCI _)) ?_
    intro x hx
    fin_cases hx
    · exact REok_catRE (by
        intro y hy; fin_cases hy
        · exact ci_isSpace
        · exact REok_litCI _
        · exact ci_isSpace
        · exact REok_chCI _
        · exact ci_clsNMoji
        · exact REok_chCI _)
    · exact REok_catRE (by
        intro y hy; fin_cases hy
        · exact ci_isSpace
        · exact REok_litCI _
        · exact ci_isSpace
        · exact REok_litCI _)

/-- The numeric inscription-number fallback pattern is case-insensitive. -/
theorem REok_patNumNum : REok patNumNum := by
  unfold patNumNum
  refine REok_catRE ?_
  intro r hr
  fin_cases hr
  · exact REok_litCI _
  · exact ci_isSpace
  · exact REok_grp ci_clsDigDot

/-- The word-form year pattern is case-insensitive. -/
theorem REok_patAnioTxt : REok patAnioTxt := by
  unfold patAnioTxt
  refine REok_catRE ?_
  intro r hr
  fin_cases hr
  · exact REok_litCI _
  · exact ci_isSpace
  · exact REok_chCI _
  · exact ci_clsNMoji
  · exact REok_chCI _
  · exact ci_isSpace
  · exact REok_grp ci_clsLetraEsp
  · exact REok_alt ci_clsPunct trivial

/-- The numeric year fallback pattern is case-insensitive. -/
theorem REok_patAnioNum : REok patAnioNum := by
  unfold patAnioNum
  refine REok_catRE ?_
  intro r hr
  fin_cases hr
  · exact REok_litCI _
  · exact ci_isSpace
  · exact REok_chCI _
  · exact ci_clsNMoji
  · exact REok_chCI _
  · exact ci_isSpace
  · exact REok_grp ci_isDigit

/-- The month alternation is case-insensitive. -/
theorem REok_mesesAlt : REok mesesAlt := by
  unfold mesesAlt
  refine REok_altsRE (REok_litCI _) ?_
  intro x hx
  fin_cases hx <;> exact REok_litCI _

/-- The date-phrase pattern is case-insensitive. -/
theorem REok_patFecha : REok patFecha := by
  unfold patFecha
  refine REok_grp (REok_catRE ?_)
  intro r hr
  fin_cases hr
  · exact ci_clsLetraEsp
  · exact ci_isSpace
  · exact REok_litCI _
  · exact ci_isSpace
  · exact REok_mesesAlt
  · exact ci_isSpace
  · exact REok_litCI _
  · exact ci_isSpace
  · exact REok_chCI _
  · exact ci_clsNMoji
  · exact REok_chCI _
  · exact ci_isSpace
  · exact ci_clsLetraEsp

/-- Lower-casing preserves emptiness. -/
theorem lowerStr_eq_nil {p : Str} : lowerStr p = [] ↔ p = [] := by
  simp [lowerStr]

/-- The standalone vuelta extractor ignores the case of its input. -/
theorem extract_fojas_vuelta_lower (t : Str) :
    extract_fojas_vuelta (lowerStr t) = extract_fojas_vuelta t := by
  simp only [extract_fojas_vuelta, normSpaces_lower,
    reSearch_lower (normSpaces t) patFvta REok_patFvta]

/-- The conservador extractor ignores the case of its input. -/
theorem extract_conservador_lower (t : Str) :
    extract_conservador (lowerStr t) = extract_conservador t := by
  simp only [extract_conservador,
    reSearch_lower t patConservador1 REok_patConservador1,
    reSearch_lower t patConservador2 REok_patConservador2]
  cases reSearch patConservador1 t with
  | some sm => simp only [grpStr_lower, stripWs_lower, titleStr_lower]
  | none =>
      cases reSearch patConservador2 t with
      | some sm => simp only [grpStr_lower, stripWs_lower, titleStr_lower]
      | none => rfl

/-- The date-phrase extractor ignores the case of its input. -/
theorem extract_fecha_texto_lower (t : Str) :
    extract_fecha_texto (lowerStr t) = extract_fecha_texto t := by
  simp only [extract_fecha_texto, reSearch_lower t patFecha REok_patFecha]
  cases reSearch patFecha t with
  | some sm => simp only [grpStr_lower, normSpaces_lower, titleStr_lower]
  | none => rfl

/-- The folio tuple extractor ignores the case of its input. -/
theorem extract_fojas_numero_anio_lower (t : Str) :
    extract_fojas_numero_anio (lowerStr t) = extract_fojas_numero_anio t := by
  have hfd : ∀ p : Str, reFinditer patVueltaSub (lowerStr p) =
      reFinditer patVueltaSub p :=
    fun p => reFinditer_lower p patVueltaSub REok_patVueltaSub
  have hrs : ∀ p : Str, removeSpansFrom (lowerStr p) 0 =
      fun spans => lowerStr (removeSpansFrom p 0 spans) :=
    fun p => funext (fun spans => removeSpansFrom_lower p spans 0)
  simp only [extract_fojas_numero_anio, normSpaces_lower,
    reSearch_lower (normSpaces t) patFojasCtx REok_patFojasCtx,
    reSearch_lower (normSpaces t) patFojasTxt REok_patFojasTxt,
    reSearch_lower (normSpaces t) patFojasNum REok_patFojasNum,
    reSearch_lower (normSpaces t) patNumTxt REok_patNumTxt,
    reSearch_lower (normSpaces t) patNumNum REok_patNumNum,
    reSearch_lower (normSpaces t) patAnioTxt REok_patAnioTxt,
    reSearch_lower (normSpaces t) patAnioNum REok_patAnioNum,
    grpStr_lower, stripWs_lower, toInt_lower, intNoDots_lower,
    parseIntAll_lower, hfd, removeSpans, hrs, lowerStr_eq_nil, ne_eq]
  cases reSearch patFojasCtx (normSpaces t) with
  | some sm =>
      simp only [grpStr_lower,
        reSearch_lower (grpStr (normSpaces t) sm.2 1) patVtaWord
          REok_patVtaWord]
  | none => rfl

/-- The candidate filter ignores the case of its input. -/
theorem es_titular_valido_lower (s : Str) :
    es_titular_valido (lowerStr s) = es_titular_valido s := by
  simp only [es_titular_valido, stripChars_lower ci_stripQuote]
  rw [stripChars_lower ci_stripPunct]
  simp only [List.isEmpty_eq_true, lowerStr_eq_nil]
  by_cases h0 : stripChars " ,.;".data s = []
  · simp [h0]
  · rw [if_neg h0, if_neg h0, wordsOf_lower]
    simp only [List.length_map]
    by_cases hl : (wordsOf (stripChars " ,.;".data s)).length < 2 ∨
        (wordsOf (stripChars " ,.;".data s)).length > 8
    · rcases hl with hl | hl <;> simp [hl]
    · push_neg at hl
      obtain ⟨hla, hlb⟩ := hl
      rw [if_neg (by
          simp only [Bool.or_eq_true, decide_eq_true_eq]
          push_neg
          exact ⟨hla, hlb⟩),
        if_neg (by
          simp only [Bool.or_eq_true, decide_eq_true_eq]
          push_neg
          exact ⟨hla, hlb⟩)]
      have hhead : ((wordsOf (stripChars " ,.;".data s)).map
          (List.map pyLower)).headD [] =
          lowerStr ((wordsOf (stripChars " ,.;".data s)).headD []) := by
        cases wordsOf (stripChars " ,.;".data s) with
        | nil => rfl
        | cons w rest => rfl
      rw [hhead, upperStr_lower]
  
/-- The candidate scorer ignores the case of its input. -/
theorem score_titular_lower (s : Str) :
    score_titular (lowerStr s) = score_titular s := by
  simp only [score_titular, upperStr_lower, wordsOf_lower, List.length_map]

/-- Stable descending insertion commutes with lower-casing the elements when
the score ignores case. -/
theorem insDesc_lower (f : Str → Nat) (hf : ∀ x, f (lowerStr x) = f x)
    (x : Str) : ∀ acc : List Str,
      insDesc f (lowerStr x) (acc.map lowerStr) =
        (insDesc f x acc).map lowerStr := by
  intro acc
  induction acc with
  | nil => rfl
  | cons y ys ih =>
      simp only [List.map_cons, insDesc, hf]
      split
      · simp only [List.map_cons, ih]
      · simp only [List.map_cons]

/-- The stable descending sort commutes with lower-casing the elements when
the score ignores case. -/
theorem sortDescBy_lower (f : Str → Nat) (hf : ∀ x, f (lowerStr x) = f x)
    (xs : List Str) :
    sortDescBy f (xs.map lowerStr) = (sortDescBy f xs).map lowerStr := by
  simp only [sortDescBy]
  have key : ∀ (l acc : List Str),
      (l.map lowerStr).foldl (fun a x => insDesc f x a) (acc.map lowerStr) =
        (l.foldl (fun a x => insDesc f x a) acc).map lowerStr := by
    intro l
    induction l with
    | nil => intro acc; rfl
    | cons x xs ih =>
        intro acc
        simp only [List.map_cons, List.foldl]
        rw [insDesc_lower f hf x acc, ih]
  exact key xs []

/-- The selection stage ignores the case of its candidates. -/
theorem selectTitular_lower (cands : List Str) :
    selectTitular (cands.map lowerStr) = selectTitular cands := by
  simp only [selectTitular, List.isEmpty_eq_true, List.map_eq_nil_iff]
  by_cases h0 : cands = []
  · simp [h0]
  · rw [if_neg h0, if_neg h0]
    have hfilter : (cands.map lowerStr).filter es_titular_valido =
        (cands.filter es_titular_valido).map lowerStr := by
      rw [List.filter_map]
      congr 1
      exact List.filter_congr (fun x _ => es_titular_valido_lower x)
    rw [hfilter]
    have hmapstrip : ((cands.filter es_titular_valido).map lowerStr).map
        (stripChars " ,.;".data) =
        ((cands.filter es_titular_valido).map
          (stripChars " ,.;".data)).map lowerStr := by
      simp only [List.map_map]
      exact List.map_congr_left
        (fun x _ => stripChars_lower ci_stripPunct x)
    rw [hmapstrip]
    simp only [List.isEmpty_eq_true, List.map_eq_nil_iff]
    by_cases h2 : cands.filter es_titular_valido = []
    · simp [h2]
    · rw [if_neg h2, if_neg h2,
        sortDescBy_lower score_titular score_titular_lower]
      cases sortDescBy score_titular ((cands.filter es_titular_valido).map
          (stripChars " ,.;".data)) with
      | nil => rfl
      | cons x xs => simp only [List.map_cons, titleStr_lower]

/-- Candidate generation on the lower-cased text gives the lower-cased
candidates, for a case-insensitive pattern. -/
theorem candsOf_lower (p : RE) (hok : REok p) (u : Str) :
    candsOf p (lowerStr u) = (candsOf p u).map lowerStr := by
  simp only [candsOf, reFinditer_lower u p hok, List.map_map]
  exact List.map_congr_left (fun sm _ => by
    simp only [Function.comp_apply, grpStr_lower, stripWs_lower])

/-- The titular extractor ignores the case of its input. -/
theorem extract_titular_lower (t : Str) :
    extract_titular (lowerStr t) = extract_titular t := by
  simp only [extract_titular, normSpaces_lower, candidatosOf,
    candsOf_lower patCaratula REok_patCaratula,
    candsOf_lower patANombre REok_patANombre,
    candsOf_lower patPropiedad REok_patPropiedad,
    candsOf_lower patTitular REok_patTitular, ← List.map_append]
  exact selectTitular_lower _

/-- C8 counterexample: the quoted-span fallback of the concession-name
extractor is case-sensitive.  The two texts differ only in letter case, yet
the upper-case one yields a name and the lower-case one yields nothing. -/
theorem c8_case_counterexample :
    lowerStr "\"CURAUMA DOS\"".data = lowerStr "\"curauma dos\"".data ∧
    extract_nombre_concesion "\"CURAUMA DOS\"".data =
      some "Curauma Dos".data ∧
    extract_nombre_concesion "\"curauma dos\"".data = none := by decide

/-- C8 amended: pattern matching in the field extractors is case-insensitive
except for the quoted-span fallback of the concession-name extractor; in
particular the titular, conservador, date-phrase, folio-tuple and standalone
vuelta extractors return identical values on any two texts that differ only
in letter case, while the concession-name extractor does not. -/
theorem c8_case_insensitivity_amended :
    (∀ t t' : Str, lowerStr t = lowerStr t' →
      extract_titular t = extract_titular t' ∧
      extract_conservador t = extract_conservador t' ∧
      extract_fecha_texto t = extract_fecha_texto t' ∧
      extract_fojas_numero_anio t = extract_fojas_numero_anio t' ∧
      extract_fojas_vuelta t = extract_fojas_vuelta t') ∧
    (extract_nombre_concesion "\"CURAUMA DOS\"".data =
        some "Curauma Dos".data ∧
      extract_nombre_concesion "\"curauma dos\"".data = none) := by
  constructor
  · intro t t' h
    refine ⟨?_, ?_, ?_, ?_, ?_⟩
    · calc extract_titular t = extract_titular (lowerStr t) :=
          (extract_titular_lower t).symm
        _ = extract_titular (lowerStr t') := by rw [h]
        _ = extract_titular t' := extract_titular_lower t'
    · calc extract_conservador t = extract_conservador (lowerStr t) :=
          (extract_conservador_lower t).symm
        _ = extract_conservador (lowerStr t') := by rw [h]
        _ = extract_conservador t' := extract_conservador_lower t'
    · calc extract_fecha_texto t = extract_fecha_texto (lowerStr t) :=
          (extract_fecha_texto_lower t).symm
        _ = extract_fecha_texto (lowerStr t') := by rw [h]
        _ = extract_fecha_texto t' := extract_fecha_texto_lower t'
    · calc extract_fojas_numero_anio t =
          extract_fojas_numero_anio (lowerStr t) :=
          (extract_fojas_numero_anio_lower t).symm
        _ = extract_fojas_numero_anio (lowerStr t') := by rw [h]
        _ = extract_fojas_numero_anio t' := extract_fojas_numero_anio_lower t'
    · calc extract_fojas_vuelta t = extract_fojas_vuelta (lowerStr t) :=
          (extract_fojas_vuelta_lower t).symm
        _ = extract_fojas_vuelta (lowerStr t') := by rw [h]
        _ = extract_fojas_vuelta t' := extract_fojas_vuelta_lower t'
  · exact ⟨by decide, by decide⟩

/-- C8 witness: the amended theorem applied at a concrete case-variant pair,
its hypothesis discharged by evaluation. -/
theorem c8_case_insensitivity_amended_witness :
    extract_fojas_numero_anio "fojas dos vuelta numero tres".data =
      extract_fojas_numero_anio "FOJAS DOS VUELTA NUMERO TRES".data :=
  (c8_case_insensitivity_amended.1 "fojas dos vuelta numero tres".data
    "FOJAS DOS VUELTA NUMERO TRES".data (by decide)).2.2.2.1
